import Mathlib

/-! mathgl: the 4x4 matrix kernel of `mat4.go` and `func.go`.

A shallow embedding of the `Mat4` type of the Go package `mathgl` and of the
operations defined on it.  Scalars live in a linearly ordered field `K`, and
`float32` arithmetic is read in two ways.  The functions named as in the
source (`Determinant`, `Multiply`, `AreEqual`, ...) use the operations of `K`
as they are: this is exact arithmetic.  The functions with the suffix `Fl`
(`DeterminantFl`, `MultiplyFl`, `AreEqualFl`, ...) apply a rounding `fl` after
every operation; with `fl = rnd32` on `K = ℚ` this is `float32` arithmetic on
finite values, with `fl = id` it is exact arithmetic again.  Every definition
is computable, so it can be evaluated at `K = ℚ`.

A `Mat4` is the Go array `[16]float32`; a method with a pointer receiver
`func (m *Mat4) F(args)` becomes a function taking the old contents of the
receiver and returning the new contents.  Loop counters that range over
`0..3` (resp. `0..15`) are typed `Fin 4` (resp. `Fin 16`).
-/

set_option autoImplicit false
set_option linter.unusedSectionVars false

namespace Mathgl

variable {K : Type} [LinearOrderedField K]

/-! ## Data model -/

/-- The Go type `Mat4 = [16]float32` (column major). -/
def Mat4 (K : Type) := Mathlib.Vector K 16

/-- The array read `m[i]`. -/
def Mat4.entry (m : Mat4 K) (i : Fin 16) : K := Mathlib.Vector.get m i

/-- Indexing `m[i]` is written `m i`. -/
instance : CoeFun (Mat4 K) (fun _ => Fin 16 → K) := ⟨Mat4.entry⟩

/-- The assignment `m[i] = v`. -/
def setAt (m : Mat4 K) (i : Fin 16) (v : K) : Mat4 K := Mathlib.Vector.set m i v

/-- The zero value of a Go array variable `var out Mat4`. -/
def zeroMat : Mat4 K := Mathlib.Vector.replicate 16 0

/-- The array whose sixteen entries are listed in index order. -/
def mk16 (a0 a1 a2 a3 a4 a5 a6 a7 a8 a9 a10 a11 a12 a13 a14 a15 : K) : Mat4 K :=
  ⟨[a0, a1, a2, a3, a4, a5, a6, a7, a8, a9, a10, a11, a12, a13, a14, a15], rfl⟩

/-- The constant `epsilon` of `func.go`. -/
def epsilon : K := 1 / 64

/-- Linear index `row + 4*col` used by `get` and `set`. -/
def idx (row col : Fin 4) : Fin 16 := ⟨row.val + 4 * col.val, by omega⟩

/-- The linear index `(a*4)+b` used by `Transpose`. -/
def idxT (a b : Fin 4) : Fin 16 := ⟨a.val * 4 + b.val, by omega⟩

/-! ## Constructors and arithmetic -/

/-- `func (m *Mat4) Identity()`: sixteen assignments to the receiver. -/
def Identity (m : Mat4 K) : Mat4 K :=
  let m := setAt m 0 1
  let m := setAt m 1 0
  let m := setAt m 2 0
  let m := setAt m 3 0
  let m := setAt m 4 0
  let m := setAt m 5 1
  let m := setAt m 6 0
  let m := setAt m 7 0
  let m := setAt m 8 0
  let m := setAt m 9 0
  let m := setAt m 10 1
  let m := setAt m 11 0
  let m := setAt m 12 0
  let m := setAt m 13 0
  let m := setAt m 14 0
  let m := setAt m 15 1
  m

/-- `func (m *Mat4) Fill(content float32)`. -/
def Fill (m : Mat4 K) (content : K) : Mat4 K :=
  (List.finRange 16).foldl (fun m i => setAt m i content) m

/-- `func (m *Mat4) Determinant() float32` in exact arithmetic: the 24-term
formula with the operations of `K`; `DeterminantFl` is the same formula with
every operation rounded. -/
def Determinant (m : Mat4 K) : K :=
  m 12 * m 9 * m 6 * m 3 - m 8 * m 13 * m 6 * m 3 - m 12 * m 5 * m 10 * m 3 + m 4 * m 13 * m 10 * m 3 +
    m 8 * m 5 * m 14 * m 3 - m 4 * m 9 * m 14 * m 3 - m 12 * m 9 * m 2 * m 7 + m 8 * m 13 * m 2 * m 7 +
    m 12 * m 1 * m 10 * m 7 - m 0 * m 13 * m 10 * m 7 - m 8 * m 1 * m 14 * m 7 + m 0 * m 9 * m 14 * m 7 +
    m 12 * m 5 * m 2 * m 11 - m 4 * m 13 * m 2 * m 11 - m 12 * m 1 * m 6 * m 11 + m 0 * m 13 * m 6 * m 11 +
    m 4 * m 1 * m 14 * m 11 - m 0 * m 5 * m 14 * m 11 - m 8 * m 5 * m 2 * m 15 + m 4 * m 9 * m 2 * m 15 +
    m 8 * m 1 * m 6 * m 15 - m 0 * m 9 * m 6 * m 15 - m 4 * m 1 * m 10 * m 15 + m 0 * m 5 * m 10 * m 15

/-- `func (m *Mat4) get(row, col int) float32`. -/
def get (m : Mat4 K) (row col : Fin 4) : K := m (idx row col)

/-- `func (m *Mat4) set(row, col int, value float32)`. -/
def set (m : Mat4 K) (row col : Fin 4) (value : K) : Mat4 K := setAt m (idx row col) value

/-- `func (m *Mat4) swap(r1, c1, r2, c2 int)`. -/
def swap (m : Mat4 K) (r1 c1 r2 c2 : Fin 4) : Mat4 K :=
  let tmp := get m r1 c1
  let m := set m r1 c1 (get m r2 c2)
  set m r2 c2 tmp

/-- `func (m *Mat4) Transpose()`: fills a zero temporary, then `*m = tmp`. -/
def Transpose (m : Mat4 K) : Mat4 K :=
  (List.finRange 4).foldl
    (fun tmp z => (List.finRange 4).foldl (fun tmp x => setAt tmp (idxT z x) (m (idxT x z))) tmp)
    zeroMat

/-- `func (m *Mat4) Multiply(in *Mat4)` in exact arithmetic: the new contents
of the receiver; `MultiplyFl` is the same with every operation rounded. -/
def Multiply (m inp : Mat4 K) : Mat4 K :=
  mk16
    (m 0 * inp 0 + m 4 * inp 1 + m 8 * inp 2 + m 12 * inp 3)
    (m 1 * inp 0 + m 5 * inp 1 + m 9 * inp 2 + m 13 * inp 3)
    (m 2 * inp 0 + m 6 * inp 1 + m 10 * inp 2 + m 14 * inp 3)
    (m 3 * inp 0 + m 7 * inp 1 + m 11 * inp 2 + m 15 * inp 3)
    (m 0 * inp 4 + m 4 * inp 5 + m 8 * inp 6 + m 12 * inp 7)
    (m 1 * inp 4 + m 5 * inp 5 + m 9 * inp 6 + m 13 * inp 7)
    (m 2 * inp 4 + m 6 * inp 5 + m 10 * inp 6 + m 14 * inp 7)
    (m 3 * inp 4 + m 7 * inp 5 + m 11 * inp 6 + m 15 * inp 7)
    (m 0 * inp 8 + m 4 * inp 9 + m 8 * inp 10 + m 12 * inp 11)
    (m 1 * inp 8 + m 5 * inp 9 + m 9 * inp 10 + m 13 * inp 11)
    (m 2 * inp 8 + m 6 * inp 9 + m 10 * inp 10 + m 14 * inp 11)
    (m 3 * inp 8 + m 7 * inp 9 + m 11 * inp 10 + m 15 * inp 11)
    (m 0 * inp 12 + m 4 * inp 13 + m 8 * inp 14 + m 12 * inp 15)
    (m 1 * inp 12 + m 5 * inp 13 + m 9 * inp 14 + m 13 * inp 15)
    (m 2 * inp 12 + m 6 * inp 13 + m 10 * inp 14 + m 14 * inp 15)
    (m 3 * inp 12 + m 7 * inp 13 + m 11 * inp 14 + m 15 * inp 15)

/-- The two arrays a call `m.Multiply(in)` can reach, when they are distinct
variables: the receiver and the argument. -/
structure MulFrame (K : Type) where
  /-- contents of the receiver `*m` -/
  recv : Mat4 K
  /-- contents of the argument `*in` -/
  arg : Mat4 K

/-- Effect of the call `m.Multiply(in)` on both arrays: the only write of the
body is `*m = out`. -/
def MultiplyCall (s : MulFrame K) : MulFrame K :=
  { recv := Multiply s.recv s.arg, arg := s.arg }

/-- `func (m *Mat4) ScalarMultiply(factor float32)` in exact arithmetic. -/
def ScalarMultiply (m : Mat4 K) (factor : K) : Mat4 K :=
  (List.finRange 16).foldl (fun m i => setAt m i (m i * factor)) m

/-- `func (m *Mat4) Assign(input *Mat4)`. -/
def Assign (m input : Mat4 K) : Mat4 K :=
  (List.finRange 16).foldl (fun m i => setAt m i (input i)) m

/-- `func (m *Mat4) AreEqual(candidate *Mat4) bool` in exact arithmetic: the
loop returns `false` at the first index whose test fails, and `true` when
none does; `AreEqualFl` is the same test with the sum and the difference
rounded. -/
def AreEqual (m candidate : Mat4 K) : Bool :=
  (List.finRange 16).all fun i =>
    decide (m i + epsilon > candidate i ∧ m i - epsilon < candidate i)

/-- `func (m *Mat4) IsIdentity() bool`. -/
def IsIdentity (m : Mat4 K) : Bool :=
  let identity := Identity (zeroMat : Mat4 K)
  if AreEqual m identity then true else false

/-- `func (m *Mat4) Scaling(x, y, z float32)`. -/
def Scaling (m : Mat4 K) (x y z : K) : Mat4 K :=
  let m := Identity m
  let m := setAt m 0 x
  let m := setAt m 5 y
  let m := setAt m 10 z
  m

/-- `func (m *Mat4) Translation(x, y, z float32)`. -/
def Translation (m : Mat4 K) (x y z : K) : Mat4 K :=
  let m := Identity m
  let m := setAt m 12 x
  let m := setAt m 13 y
  let m := setAt m 14 z
  m

/-! ## Rotations, rotation block and frustum planes

The scalar functions `Fcos32`, `Fsin32` and `Fsqrt32` are called by the
functions below but are defined outside the source files at hand; an ordered
field has no such functions of its own, so each function that calls them
takes them as parameters. -/

/-- `func (m *Mat4) RotationX(radians float32)`. -/
def RotationX (Fcos32 Fsin32 : K → K) (m : Mat4 K) (radians : K) : Mat4 K :=
  let m := setAt m 0 1
  let m := setAt m 1 0
  let m := setAt m 2 0
  let m := setAt m 3 0
  let m := setAt m 4 0
  let m := setAt m 5 (Fcos32 radians)
  let m := setAt m 6 (Fsin32 radians)
  let m := setAt m 7 0
  let m := setAt m 8 0
  let m := setAt m 9 (-Fsin32 radians)
  let m := setAt m 10 (Fcos32 radians)
  let m := setAt m 11 0
  let m := setAt m 12 0
  let m := setAt m 13 0
  let m := setAt m 14 0
  let m := setAt m 15 1
  m

/-- `func (m *Mat4) RotationY(radians float32)`. -/
def RotationY (Fcos32 Fsin32 : K → K) (m : Mat4 K) (radians : K) : Mat4 K :=
  let m := setAt m 0 (Fcos32 radians)
  let m := setAt m 1 0
  let m := setAt m 2 (-Fsin32 radians)
  let m := setAt m 3 0
  let m := setAt m 4 0
  let m := setAt m 5 1
  let m := setAt m 6 0
  let m := setAt m 7 0
  let m := setAt m 8 (Fsin32 radians)
  let m := setAt m 9 0
  let m := setAt m 10 (Fcos32 radians)
  let m := setAt m 11 0
  let m := setAt m 12 0
  let m := setAt m 13 0
  let m := setAt m 14 0
  let m := setAt m 15 1
  m

/-- `func (m *Mat4) RotationZ(radians float32)`. -/
def RotationZ (Fcos32 Fsin32 : K → K) (m : Mat4 K) (radians : K) : Mat4 K :=
  let m := setAt m 0 (Fcos32 radians)
  let m := setAt m 1 (Fsin32 radians)
  let m := setAt m 2 0
  let m := setAt m 3 0
  let m := setAt m 4 (-Fsin32 radians)
  let m := setAt m 5 (Fcos32 radians)
  let m := setAt m 6 0
  let m := setAt m 7 0
  let m := setAt m 8 0
  let m := setAt m 9 0
  let m := setAt m 10 1
  let m := setAt m 11 0
  let m := setAt m 12 0
  let m := setAt m 13 0
  let m := setAt m 14 0
  let m := setAt m 15 1
  m

/-- Modelled from the spec: the type `Quaternion` is declared outside the
source files at hand; the spec gives it the four scalar fields x, y, z, w,
which `RotationQuaternion` reads as `X`, `Y`, `Z`, `W`. -/
structure Quaternion (K : Type) where
  /-- field `X` -/
  X : K
  /-- field `Y` -/
  Y : K
  /-- field `Z` -/
  Z : K
  /-- field `W` -/
  W : K

/-- `func (m *Mat4) RotationQuaternion(pIn *Quaternion)`. -/
def RotationQuaternion (m : Mat4 K) (pIn : Quaternion K) : Mat4 K :=
  let m := setAt m 0 (1 - 2 * (pIn.Y * pIn.Y + pIn.Z * pIn.Z))
  let m := setAt m 1 (2 * (pIn.X * pIn.Y - pIn.W * pIn.Z))
  let m := setAt m 2 (2 * (pIn.X * pIn.Z + pIn.W * pIn.Y))
  let m := setAt m 3 0
  let m := setAt m 4 (2 * (pIn.X * pIn.Y + pIn.W * pIn.Z))
  let m := setAt m 5 (1 - 2 * (pIn.X * pIn.X + pIn.Z * pIn.Z))
  let m := setAt m 6 (2 * (pIn.Y * pIn.Z - pIn.W * pIn.X))
  let m := setAt m 7 0
  let m := setAt m 8 (2 * (pIn.X * pIn.Z - pIn.W * pIn.Y))
  let m := setAt m 9 (2 * (pIn.Y * pIn.Z + pIn.W * pIn.X))
  let m := setAt m 10 (1 - 2 * (pIn.X * pIn.X + pIn.Y * pIn.Y))
  let m := setAt m 11 0
  let m := setAt m 12 0
  let m := setAt m 13 0
  let m := setAt m 14 0
  let m := setAt m 15 1
  m

/-- `func (m *Mat4) RotationPitchYawRoll(pitch, yaw, roll float32)` in exact
arithmetic; `RotationPitchYawRollFl` is the same with every product, sum and
difference rounded. -/
def RotationPitchYawRoll (Fcos32 Fsin32 : K → K) (m : Mat4 K) (pitch yaw roll : K) : Mat4 K :=
  let cr := Fcos32 pitch
  let sr := Fsin32 pitch
  let cp := Fcos32 yaw
  let sp := Fsin32 yaw
  let cy := Fcos32 roll
  let sy := Fsin32 roll
  let srsp := sr * sp
  let crsp := cr * sp
  let m := setAt m 0 (cp * cy)
  let m := setAt m 1 (srsp * cy - cr * sy)
  let m := setAt m 2 (crsp * cy + sr * sy)
  let m := setAt m 3 0
  let m := setAt m 4 (cp * sy)
  let m := setAt m 5 (srsp * sy + cr * cy)
  let m := setAt m 6 (crsp * sy - sr * cy)
  let m := setAt m 7 0
  let m := setAt m 8 (-sp)
  let m := setAt m 9 (sr * cp)
  let m := setAt m 10 (cr * cp)
  let m := setAt m 11 0
  let m := setAt m 12 0
  let m := setAt m 13 0
  let m := setAt m 14 0
  let m := setAt m 15 1
  m

/-- Modelled from the spec: the type `Mat3` is declared outside the source
files at hand; the spec describes it as nine entries in the same column-major
convention (the Go array `[9]float32`). -/
def Mat3 (K : Type) := Mathlib.Vector K 9

/-- The array read `out[i]` of a `Mat3`. -/
def Mat3.entry (m : Mat3 K) (i : Fin 9) : K := Mathlib.Vector.get m i

/-- Indexing a `Mat3` is written `m i`. -/
instance : CoeFun (Mat3 K) (fun _ => Fin 9 → K) := ⟨Mat3.entry⟩

/-- The `Mat3` whose nine entries are listed in index order. -/
def mk9 (a0 a1 a2 a3 a4 a5 a6 a7 a8 : K) : Mat3 K :=
  ⟨[a0, a1, a2, a3, a4, a5, a6, a7, a8], rfl⟩

/-- Modelled from the spec: the type `Vec3` is declared outside the source
files at hand; the spec gives it the three scalar fields x, y, z. -/
structure Vec3 (K : Type) where
  /-- field `X` -/
  X : K
  /-- field `Y` -/
  Y : K
  /-- field `Z` -/
  Z : K

/-- `func (m *Mat4) ExtractRotation() *Mat3`: the nine assignments to the
fresh local `out`. -/
def ExtractRotation (m : Mat4 K) : Mat3 K :=
  mk9 (m 0) (m 1) (m 2) (m 4) (m 5) (m 6) (m 8) (m 9) (m 10)

/-- `func (m *Mat4) RotationTranslation(rotation *Mat3, translation *Vec3)`. -/
def RotationTranslation (m : Mat4 K) (rotation : Mat3 K) (translation : Vec3 K) : Mat4 K :=
  let m := setAt m 0 (rotation 0)
  let m := setAt m 1 (rotation 1)
  let m := setAt m 2 (rotation 2)
  let m := setAt m 3 0
  let m := setAt m 4 (rotation 3)
  let m := setAt m 5 (rotation 4)
  let m := setAt m 6 (rotation 5)
  let m := setAt m 7 0
  let m := setAt m 8 (rotation 6)
  let m := setAt m 9 (rotation 7)
  let m := setAt m 10 (rotation 8)
  let m := setAt m 11 0
  let m := setAt m 12 translation.X
  let m := setAt m 13 translation.Y
  let m := setAt m 14 translation.Z
  let m := setAt m 15 1
  m

/-- Modelled from the spec: the type `Plane` is declared outside the source
files at hand; the spec gives it the four scalars A, B, C, D of the implicit
form `Ax + By + Cz + D = 0`. -/
structure Plane (K : Type) where
  /-- field `A` -/
  A : K
  /-- field `B` -/
  B : K
  /-- field `C` -/
  C : K
  /-- field `D` -/
  D : K

/-- Modelled from the spec: the type `PlaneEnum` and its six constants are
declared outside the source files at hand.  A Go named type used in a
`switch` with a `default` branch is an integer type, so a selector is an
integer; the values of the six constants are not known and are parameters. -/
structure PlaneKinds where
  /-- constant `PLANE_RIGHT` -/
  PLANE_RIGHT : Int
  /-- constant `PLANE_LEFT` -/
  PLANE_LEFT : Int
  /-- constant `PLANE_BOTTOM` -/
  PLANE_BOTTOM : Int
  /-- constant `PLANE_TOP` -/
  PLANE_TOP : Int
  /-- constant `PLANE_FAR` -/
  PLANE_FAR : Int
  /-- constant `PLANE_NEAR` -/
  PLANE_NEAR : Int

/-- The `switch planeType` of `kmMat4ExtractPlane` (lines 481-520): the
coefficients assigned to `plane` by the first matching case, or `none` when
the `default` branch is taken. -/
def planeSwitch (pk : PlaneKinds) (m : Mat4 K) (planeType : Int) : Option (Plane K) :=
  if planeType = pk.PLANE_RIGHT then
    some { A := m 3 - m 0, B := m 7 - m 4, C := m 11 - m 8, D := m 15 - m 12 }
  else if planeType = pk.PLANE_LEFT then
    some { A := m 3 + m 0, B := m 7 + m 4, C := m 11 + m 8, D := m 15 + m 12 }
  else if planeType = pk.PLANE_BOTTOM then
    some { A := m 3 + m 1, B := m 7 + m 5, C := m 11 + m 9, D := m 15 + m 13 }
  else if planeType = pk.PLANE_TOP then
    some { A := m 3 - m 1, B := m 7 - m 5, C := m 11 - m 9, D := m 15 - m 13 }
  else if planeType = pk.PLANE_FAR then
    some { A := m 3 - m 2, B := m 7 - m 6, C := m 11 - m 10, D := m 15 - m 14 }
  else if planeType = pk.PLANE_NEAR then
    some { A := m 3 + m 2, B := m 7 + m 6, C := m 11 + m 10, D := m 15 + m 14 }
  else none

/-- `func (m *Mat4) kmMat4ExtractPlane(planeType PlaneEnum) *Plane` in exact
arithmetic: `none` stands for the call ending in the `panic` of the `default`
branch, `some p` for the call returning the plane `p`.  The fields of `p`
are those of the source only when `t` is not zero; `kmMat4ExtractPlaneFl`
keeps the division by a zero `t` apart and rounds every operation. -/
def kmMat4ExtractPlane (pk : PlaneKinds) (Fsqrt32 : K → K) (m : Mat4 K) (planeType : Int) :
    Option (Plane K) :=
  match planeSwitch pk m planeType with
  | none => none
  | some plane =>
    let t := Fsqrt32 (plane.A * plane.A + plane.B * plane.B + plane.C * plane.C)
    some { A := plane.A / t, B := plane.B / t, C := plane.C / t, D := plane.D / t }

/-- The six constants numbered from zero in the order of the cases of the
`switch`; any assignment of distinct values would serve. -/
def planeKinds0 : PlaneKinds :=
  { PLANE_RIGHT := 0, PLANE_LEFT := 1, PLANE_BOTTOM := 2, PLANE_TOP := 3,
    PLANE_FAR := 4, PLANE_NEAR := 5 }

/-- The 3x3 matrix a `Mat3` stands for: entry `(r, c)` is `m[r + 3*c]`. -/
def toMatrix3 (m : Mat3 K) : Matrix (Fin 3) (Fin 3) K :=
  Matrix.of fun r c => m ⟨r.val + 3 * c.val, by omega⟩

/-! ## Gauss-Jordan elimination -/

/-- Modelled from the spec: `Fabs32` is called by `gaussj` but defined in a
file that is not part of the sources at hand; the spec lists it as the `abs`
of the scalar math facility. -/
def Fabs32 (x : K) : K := |x|

/-- The locals `big`, `irow`, `icol` of `gaussj` during the pivot search. -/
structure Pivot (K : Type) where
  /-- largest magnitude seen so far -/
  big : K
  /-- row of the last accepted entry -/
  irow : Fin 4
  /-- column of the last accepted entry -/
  icol : Fin 4

/-- Body of the loop over `k` (lines 79-87) for a fixed row `j`. -/
def searchRow (a : Mat4 K) (ipiv : Fin 4 → Nat) (j : Fin 4) (p : Pivot K) : Pivot K :=
  (List.finRange 4).foldl
    (fun p k =>
      if ipiv k = 0 then
        if Fabs32 (get a j k) ≥ p.big then
          { big := Fabs32 (get a j k), irow := j, icol := k }
        else p
      else p)
    p

/-- The pivot search (lines 76-89): `big = 0.0`, then the loops over `j` and
`k`; `irow` and `icol` keep their previous values until an entry is accepted. -/
def search (a : Mat4 K) (ipiv : Fin 4 → Nat) (irow icol : Fin 4) : Pivot K :=
  (List.finRange 4).foldl
    (fun p j => if ipiv j ≠ 1 then searchRow a ipiv j p else p)
    { big := 0, irow := irow, icol := icol }

/-- The loop `for l { m.swap(irow, l, icol, l) }` (lines 92-94 and 95-97). -/
def swapRows (m : Mat4 K) (irow icol : Fin 4) : Mat4 K :=
  (List.finRange 4).foldl (fun m l => swap m irow l icol l) m

/-- The loop `for l { m.set(icol, l, m.get(icol, l)*pivinv) }` (lines 106-111). -/
def scaleRow (m : Mat4 K) (icol : Fin 4) (pivinv : K) : Mat4 K :=
  (List.finRange 4).foldl (fun m l => set m icol l (get m icol l * pivinv)) m

/-- The loop `for l { a.set(ll, l, a.get(ll, l)-a.get(icol, l)*dum) }` (lines 117-119). -/
def elimRowA (a : Mat4 K) (ll icol : Fin 4) (dum : K) : Mat4 K :=
  (List.finRange 4).foldl (fun a l => set a ll l (get a ll l - get a icol l * dum)) a

/-- The loop `for l { b.set(ll, l, a.get(ll, l)-b.get(icol, l)*dum) }` (lines 120-122);
it reads `a` after `elimRowA` has run on row `ll`. -/
def elimRowB (a b : Mat4 K) (ll icol : Fin 4) (dum : K) : Mat4 K :=
  (List.finRange 4).foldl (fun b l => set b ll l (get a ll l - get b icol l * dum)) b

/-- The loop over `ll` (lines 113-124) on the pair `(a, b)`. -/
def eliminate (a b : Mat4 K) (icol : Fin 4) : Mat4 K × Mat4 K :=
  (List.finRange 4).foldl
    (fun ab ll =>
      if ll ≠ icol then
        let dum := get ab.1 ll icol
        let a := set ab.1 ll icol 0
        let a := elimRowA a ll icol dum
        let b := elimRowB a ab.2 ll icol dum
        (a, b)
      else ab)
    (a, b)

/-- The variables of `gaussj` that live across iterations of the main loop. -/
structure GaussState (K : Type) where
  /-- contents of `*a` -/
  a : Mat4 K
  /-- contents of `*b` -/
  b : Mat4 K
  /-- local `icol` -/
  icol : Fin 4
  /-- local `irow` -/
  irow : Fin 4
  /-- local `indxc` -/
  indxc : Fin 4 → Fin 4
  /-- local `indxr` -/
  indxr : Fin 4 → Fin 4
  /-- local `ipiv` -/
  ipiv : Fin 4 → Nat

/-- Lines 76-100 of iteration `i`: pivot search, `ipiv[icol]++`, the row
interchange, and the record of the pivot position. -/
def choosePivot (st : GaussState K) (i : Fin 4) : GaussState K :=
  let p := search st.a st.ipiv st.irow st.icol
  let irow := p.irow
  let icol := p.icol
  let ipiv := Function.update st.ipiv icol (st.ipiv icol + 1)
  let a := if irow ≠ icol then swapRows st.a irow icol else st.a
  let b := if irow ≠ icol then swapRows st.b irow icol else st.b
  { a := a, b := b, icol := icol, irow := irow,
    indxc := Function.update st.indxc i icol,
    indxr := Function.update st.indxr i irow,
    ipiv := ipiv }

/-- Lines 104-124 of an iteration: scale the pivot row, eliminate the others. -/
def reduce (st : GaussState K) : GaussState K :=
  let icol := st.icol
  let pivinv := 1 / get st.a icol icol
  let a := set st.a icol icol 1
  let a := scaleRow a icol pivinv
  let b := scaleRow st.b icol pivinv
  let ab := eliminate a b icol
  { st with a := ab.1, b := ab.2 }

/-- The main loop (lines 75-125) over the remaining values of `i`; the flag
is `false` when the loop was left by `return false` (line 102). -/
def gaussjLoop : List (Fin 4) → GaussState K → Bool × GaussState K
  | [], st => (true, st)
  | i :: rest, st =>
    let st := choosePivot st i
    if get st.a st.icol st.icol = 0 then (false, st)
    else gaussjLoop rest (reduce st)

/-- The column interchanges of lines 129-135, for `l` running through `ls`. -/
def unscramble (indxr indxc : Fin 4 → Fin 4) (ls : List (Fin 4)) (a : Mat4 K) : Mat4 K :=
  ls.foldl
    (fun a l =>
      if indxr l ≠ indxc l then
        (List.finRange 4).foldl (fun a k => swap a k (indxr l) k (indxc l)) a
      else a)
    a

/-- `func gaussj(a, b *Mat4) bool`: the returned flag and the final contents
of `*a` and `*b`. -/
def gaussj (a b : Mat4 K) : Bool × Mat4 K × Mat4 K :=
  let st0 : GaussState K :=
    { a := a, b := b, icol := 0, irow := 0,
      indxc := fun _ => 0, indxr := fun _ => 0, ipiv := fun _ => 0 }
  let r := gaussjLoop (List.finRange 4) st0
  if r.1 = false then (false, r.2.a, r.2.b)
  else (true, unscramble r.2.indxr r.2.indxc (List.finRange 4).reverse r.2.a, r.2.b)

/-- `func (m *Mat4) Inverse() bool`: the returned flag and the contents of
the receiver after the call. -/
def Inverse (m : Mat4 K) : Bool × Mat4 K :=
  let inv := Assign zeroMat m
  let tmp := Identity zeroMat
  let r := gaussj inv tmp
  if r.1 = false then (false, m)
  else (true, Assign m r.2.1)

/-- The 4x4 matrix a `Mat4` stands for: entry `(r, c)` is `m[r + 4*c]`. -/
def toMatrix (m : Mat4 K) : Matrix (Fin 4) (Fin 4) K := Matrix.of fun r c => m (idx r c)

/-- The `a` component of one pass of the loop over `ll`. -/
def elimStepA (q : Fin 4) (a : Mat4 K) (ll : Fin 4) : Mat4 K :=
  if ll ≠ q then elimRowA (set a ll q 0) ll q (get a ll q) else a

/-- Entry `(j, k)` takes part in the pivot search. -/
def Eligible (ipiv : Fin 4 → Nat) (j k : Fin 4) : Prop := ipiv j ≠ 1 ∧ ipiv k = 0

/-- What the pivot search knows after it has looked at the entries in `seen`. -/
structure SearchInv (a : Mat4 K) (ipiv : Fin 4 → Nat) (seen : Fin 4 → Fin 4 → Prop)
    (p : Pivot K) : Prop where
  nonneg : 0 ≤ p.big
  bound : ∀ j k, seen j k → Eligible ipiv j k → Fabs32 (get a j k) ≤ p.big
  attained : (∃ j k, seen j k ∧ Eligible ipiv j k) →
    Eligible ipiv p.irow p.icol ∧ p.big = Fabs32 (get a p.irow p.icol)
  fresh : (¬ ∃ j k, seen j k ∧ Eligible ipiv j k) → p.big = 0

/-- Right-hand vector of the tableau: `x` in the columns not yet used as
pivot, minus the permuted image `y` in the others. -/
def mixIn (ipiv : Fin 4 → Nat) (ρ : Equiv.Perm (Fin 4)) (x y : Fin 4 → K) : Fin 4 → K :=
  fun c => if ipiv c = 0 then x c else -(y (ρ c))

/-- Left-hand vector of the tableau. -/
def mixOut (ipiv : Fin 4 → Nat) (ρ : Equiv.Perm (Fin 4)) (x y : Fin 4 → K) : Fin 4 → K :=
  fun r => if ipiv r = 0 then y (ρ r) else -(x r)

/-- The relation between the original matrix `A` and the contents `S` of `*a`
in the middle of the elimination: for every `x`, with `y = A x`, the rows of
`S` express the `y` of the unused rows and the `x` of the used columns through
the `x` of the unused columns and the `y` of the used rows. -/
def Tableau (A : Matrix (Fin 4) (Fin 4) K) (S : Mat4 K) (ipiv : Fin 4 → Nat)
    (ρ : Equiv.Perm (Fin 4)) : Prop :=
  ∀ (x : Fin 4 → K) (r : Fin 4),
    ∑ c, get S r c * mixIn ipiv ρ x (A.mulVec x) c = mixOut ipiv ρ x (A.mulVec x) r

/-- The row permutation accumulated by the interchanges recorded in `indxr`
and `indxc` at the steps listed in `done`. -/
def permOf (indxr indxc : Fin 4 → Fin 4) (done : List (Fin 4)) : Equiv.Perm (Fin 4) :=
  (done.map fun i => Equiv.swap (indxr i) (indxc i)).prod

/-- Loop invariant of the main loop of `gaussj`, `done` being the values of
`i` already processed and `A` the matrix `gaussj` was called on. -/
structure GaussInv (A : Matrix (Fin 4) (Fin 4) K) (done : List (Fin 4))
    (st : GaussState K) : Prop where
  binary : ∀ c, st.ipiv c = 0 ∨ st.ipiv c = 1
  count : (Finset.univ.filter fun c => st.ipiv c = 0).card + done.length = 4
  tableau : Tableau A st.a st.ipiv (permOf st.indxr st.indxc done)

/-- What the claims on rotations ask of a matrix: its rotation block `R`
satisfies `R Rᵀ = 1`, and both the block and the whole matrix have
determinant 1. -/
def IsRotation (m : Mat4 K) : Prop :=
  toMatrix3 (ExtractRotation m) * Matrix.transpose (toMatrix3 (ExtractRotation m)) = 1 ∧
    (toMatrix3 (ExtractRotation m)).det = 1 ∧ Determinant m = 1

/-- Scan order of the pivot search (rows `j` ascending, then columns `k`
ascending): entry `(j, k)` is met no later than entry `(j', k')`. -/
def ScanLe (j k j' k' : Fin 4) : Prop := j < j' ∨ (j = j' ∧ k ≤ k')

/-- Among the entries in `seen`, no eligible one of magnitude `p.big` comes
after the recorded position in scan order. -/
def LastInv (a : Mat4 K) (ipiv : Fin 4 → Nat) (seen : Fin 4 → Fin 4 → Prop)
    (p : Pivot K) : Prop :=
  ∀ j k, seen j k → Eligible ipiv j k → Fabs32 (get a j k) = p.big → ScanLe j k p.irow p.icol

/-- The variables of `gaussj` on entry to the main loop: `a` and `b` as
passed, every integer local at its zero value. -/
def gaussjInit (a b : Mat4 K) : GaussState K :=
  { a := a, b := b, icol := 0, irow := 0,
    indxc := fun _ => 0, indxr := fun _ => 0, ipiv := fun _ => 0 }

/-- The run of the first `n` iterations of the main loop of `gaussj(a, b)`:
the flag tells whether none of them returned `false`, the state is the one
the next iteration starts from. -/
def gaussjPrefix (a b : Mat4 K) (n : Nat) : Bool × GaussState K :=
  gaussjLoop ((List.finRange 4).take n) (gaussjInit a b)

/-- The columns marked in `ipiv` are the pivot columns recorded in `indxc`
at the steps listed in `done`. -/
def UsedInv (done : List (Fin 4)) (st : GaussState K) : Prop :=
  ∀ c, st.ipiv c ≠ 0 ↔ ∃ i ∈ done, st.indxc i = c

/-! ## float32 arithmetic -/

/-- The power `2^k` for an integer exponent. -/
def pow2 (k : Int) : ℚ :=
  if 0 ≤ k then ((2 ^ k.toNat : Nat) : ℚ) else 1 / ((2 ^ (-k).toNat : Nat) : ℚ)

/-- Halving by structural recursion: `natLog2Aux fuel n` is the number of
times `n` can be halved before it drops below 2, at most `fuel` times. -/
def natLog2Aux : Nat → Nat → Nat
  | 0, _ => 0
  | fuel + 1, n => if 2 ≤ n then natLog2Aux fuel (n / 2) + 1 else 0

/-- The exponent of a positive natural number: `2^(natLog2 n) ≤ n < 2^(natLog2 n + 1)`. -/
def natLog2 (n : Nat) : Nat := natLog2Aux n n

/-- The exponent of a positive rational: the integer `e` with `2^e ≤ a < 2^(e+1)`. -/
def ilog2 (a : ℚ) : Int :=
  let e0 : Int := (natLog2 a.num.natAbs : Int) - (natLog2 a.den : Int)
  if pow2 e0 ≤ a then e0 else e0 - 1

/-- The integer nearest to `y`, the even one when `y` lies half way. -/
def roundEven (y : ℚ) : Int :=
  let f := Rat.floor y
  let r := y - f
  if r < 1 / 2 then f else if 1 / 2 < r then f + 1 else if f % 2 = 0 then f else f + 1

/-- The rounding Go applies to the exact result of each `float32` operation
(IEEE 754 binary32, round to nearest, ties to even): 24 significant bits, and
below `2^-126` the fixed spacing `2^-149`. Results whose rounded magnitude
reaches `2^128`, which the machine turns into an infinity, are outside this
model. -/
def rnd32 (x : ℚ) : ℚ :=
  if x = 0 then 0
  else
    let q := pow2 (max (ilog2 |x|) (-126) - 23)
    (roundEven (x / q) : ℚ) * q

/-- Bisection for the integer square root: tries the bits `bit - 1, ..., 0`. -/
def natSqrtAux (n : Nat) : Nat → Nat → Nat
  | 0, acc => acc
  | bit + 1, acc =>
    if (acc + 2 ^ bit) * (acc + 2 ^ bit) ≤ n then natSqrtAux n bit (acc + 2 ^ bit)
    else natSqrtAux n bit acc

/-- The largest natural number whose square is at most `n`. -/
def natSqrt (n : Nat) : Nat := natSqrtAux n (natLog2 n / 2 + 1) 0

/-- Modelled from the spec: `Fsqrt32` is defined outside the source files at
hand; the spec lists it as the `sqrt` of the scalar facility over
single-precision floats.  This is the correctly rounded square root of a
positive `float32` (round to nearest, ties to even), and 0 at 0. -/
def sqrt32 (x : ℚ) : ℚ :=
  if x ≤ 0 then 0
  else
    let k : Int := (47 - ilog2 x) / 2
    let y := x * pow2 (2 * k)
    let l := natSqrt (Rat.floor y).toNat
    let mid : ℚ := ((l * l + l : Nat) : ℚ) + 1 / 4
    let r : Nat := if y < mid then l else if mid < y then l + 1 else if l % 2 = 0 then l else l + 1
    (r : ℚ) / pow2 k

/-! ## The arithmetic of the source with its rounding

Each function below is the source function of the same name with every
`float32` addition, subtraction, multiplication and division followed by the
rounding `fl`, in the order in which Go evaluates the expression (left to
right).  With `fl = id` this is exact arithmetic, with `fl = rnd32` it is
`float32` arithmetic on finite values. -/

/-- The product `a * b * c * d` as Go evaluates it: `((a * b) * c) * d`. -/
def prod4 (fl : K → K) (a b c d : K) : K := fl (fl (fl (a * b) * c) * d)

/-- The sum `a1*b1 + a2*b2 + a3*b3 + a4*b4` as Go evaluates it. -/
def dot4 (fl : K → K) (a1 b1 a2 b2 a3 b3 a4 b4 : K) : K :=
  fl (fl (fl (fl (a1 * b1) + fl (a2 * b2)) + fl (a3 * b3)) + fl (a4 * b4))

/-- `func (m *Mat4) Determinant() float32` with rounding: the 24 products of
lines 40-45, added and subtracted from left to right. -/
def DeterminantFl (fl : K → K) (m : Mat4 K) : K :=
  let d := prod4 fl (m 12) (m 9) (m 6) (m 3)
  let d := fl (d - prod4 fl (m 8) (m 13) (m 6) (m 3))
  let d := fl (d - prod4 fl (m 12) (m 5) (m 10) (m 3))
  let d := fl (d + prod4 fl (m 4) (m 13) (m 10) (m 3))
  let d := fl (d + prod4 fl (m 8) (m 5) (m 14) (m 3))
  let d := fl (d - prod4 fl (m 4) (m 9) (m 14) (m 3))
  let d := fl (d - prod4 fl (m 12) (m 9) (m 2) (m 7))
  let d := fl (d + prod4 fl (m 8) (m 13) (m 2) (m 7))
  let d := fl (d + prod4 fl (m 12) (m 1) (m 10) (m 7))
  let d := fl (d - prod4 fl (m 0) (m 13) (m 10) (m 7))
  let d := fl (d - prod4 fl (m 8) (m 1) (m 14) (m 7))
  let d := fl (d + prod4 fl (m 0) (m 9) (m 14) (m 7))
  let d := fl (d + prod4 fl (m 12) (m 5) (m 2) (m 11))
  let d := fl (d - prod4 fl (m 4) (m 13) (m 2) (m 11))
  let d := fl (d - prod4 fl (m 12) (m 1) (m 6) (m 11))
  let d := fl (d + prod4 fl (m 0) (m 13) (m 6) (m 11))
  let d := fl (d + prod4 fl (m 4) (m 1) (m 14) (m 11))
  let d := fl (d - prod4 fl (m 0) (m 5) (m 14) (m 11))
  let d := fl (d - prod4 fl (m 8) (m 5) (m 2) (m 15))
  let d := fl (d + prod4 fl (m 4) (m 9) (m 2) (m 15))
  let d := fl (d + prod4 fl (m 8) (m 1) (m 6) (m 15))
  let d := fl (d - prod4 fl (m 0) (m 9) (m 6) (m 15))
  let d := fl (d - prod4 fl (m 4) (m 1) (m 10) (m 15))
  let d := fl (d + prod4 fl (m 0) (m 5) (m 10) (m 15))
  d

/-- `func (m *Mat4) Multiply(in *Mat4)` with rounding. -/
def MultiplyFl (fl : K → K) (m inp : Mat4 K) : Mat4 K :=
  mk16
    (dot4 fl (m 0) (inp 0) (m 4) (inp 1) (m 8) (inp 2) (m 12) (inp 3))
    (dot4 fl (m 1) (inp 0) (m 5) (inp 1) (m 9) (inp 2) (m 13) (inp 3))
    (dot4 fl (m 2) (inp 0) (m 6) (inp 1) (m 10) (inp 2) (m 14) (inp 3))
    (dot4 fl (m 3) (inp 0) (m 7) (inp 1) (m 11) (inp 2) (m 15) (inp 3))
    (dot4 fl (m 0) (inp 4) (m 4) (inp 5) (m 8) (inp 6) (m 12) (inp 7))
    (dot4 fl (m 1) (inp 4) (m 5) (inp 5) (m 9) (inp 6) (m 13) (inp 7))
    (dot4 fl (m 2) (inp 4) (m 6) (inp 5) (m 10) (inp 6) (m 14) (inp 7))
    (dot4 fl (m 3) (inp 4) (m 7) (inp 5) (m 11) (inp 6) (m 15) (inp 7))
    (dot4 fl (m 0) (inp 8) (m 4) (inp 9) (m 8) (inp 10) (m 12) (inp 11))
    (dot4 fl (m 1) (inp 8) (m 5) (inp 9) (m 9) (inp 10) (m 13) (inp 11))
    (dot4 fl (m 2) (inp 8) (m 6) (inp 9) (m 10) (inp 10) (m 14) (inp 11))
    (dot4 fl (m 3) (inp 8) (m 7) (inp 9) (m 11) (inp 10) (m 15) (inp 11))
    (dot4 fl (m 0) (inp 12) (m 4) (inp 13) (m 8) (inp 14) (m 12) (inp 15))
    (dot4 fl (m 1) (inp 12) (m 5) (inp 13) (m 9) (inp 14) (m 13) (inp 15))
    (dot4 fl (m 2) (inp 12) (m 6) (inp 13) (m 10) (inp 14) (m 14) (inp 15))
    (dot4 fl (m 3) (inp 12) (m 7) (inp 13) (m 11) (inp 14) (m 15) (inp 15))

/-- `func (m *Mat4) ScalarMultiply(factor float32)` with rounding. -/
def ScalarMultiplyFl (fl : K → K) (m : Mat4 K) (factor : K) : Mat4 K :=
  (List.finRange 16).foldl (fun m i => setAt m i (fl (m i * factor))) m

/-- `func (m *Mat4) AreEqual(candidate *Mat4) bool` with rounding; the
constant `epsilon = 1.0 / 64.0` is a `float32` number. -/
def AreEqualFl (fl : K → K) (m candidate : Mat4 K) : Bool :=
  (List.finRange 16).all fun i =>
    decide (fl (m i + epsilon) > candidate i ∧ fl (m i - epsilon) < candidate i)

/-- `func (m *Mat4) RotationPitchYawRoll(pitch, yaw, roll float32)` with
rounding; the negation `-sp` is exact. -/
def RotationPitchYawRollFl (fl : K → K) (Fcos32 Fsin32 : K → K) (m : Mat4 K)
    (pitch yaw roll : K) : Mat4 K :=
  let cr := Fcos32 pitch
  let sr := Fsin32 pitch
  let cp := Fcos32 yaw
  let sp := Fsin32 yaw
  let cy := Fcos32 roll
  let sy := Fsin32 roll
  let srsp := fl (sr * sp)
  let crsp := fl (cr * sp)
  let m := setAt m 0 (fl (cp * cy))
  let m := setAt m 1 (fl (fl (srsp * cy) - fl (cr * sy)))
  let m := setAt m 2 (fl (fl (crsp * cy) + fl (sr * sy)))
  let m := setAt m 3 0
  let m := setAt m 4 (fl (cp * sy))
  let m := setAt m 5 (fl (fl (srsp * sy) + fl (cr * cy)))
  let m := setAt m 6 (fl (fl (crsp * sy) - fl (sr * cy)))
  let m := setAt m 7 0
  let m := setAt m 8 (-sp)
  let m := setAt m 9 (fl (sr * cp))
  let m := setAt m 10 (fl (cr * cp))
  let m := setAt m 11 0
  let m := setAt m 12 0
  let m := setAt m 13 0
  let m := setAt m 14 0
  let m := setAt m 15 1
  m

/-- The `switch planeType` of `kmMat4ExtractPlane` with rounding. -/
def planeSwitchFl (fl : K → K) (pk : PlaneKinds) (m : Mat4 K) (planeType : Int) :
    Option (Plane K) :=
  if planeType = pk.PLANE_RIGHT then
    some { A := fl (m 3 - m 0), B := fl (m 7 - m 4), C := fl (m 11 - m 8),
           D := fl (m 15 - m 12) }
  else if planeType = pk.PLANE_LEFT then
    some { A := fl (m 3 + m 0), B := fl (m 7 + m 4), C := fl (m 11 + m 8),
           D := fl (m 15 + m 12) }
  else if planeType = pk.PLANE_BOTTOM then
    some { A := fl (m 3 + m 1), B := fl (m 7 + m 5), C := fl (m 11 + m 9),
           D := fl (m 15 + m 13) }
  else if planeType = pk.PLANE_TOP then
    some { A := fl (m 3 - m 1), B := fl (m 7 - m 5), C := fl (m 11 - m 9),
           D := fl (m 15 - m 13) }
  else if planeType = pk.PLANE_FAR then
    some { A := fl (m 3 - m 2), B := fl (m 7 - m 6), C := fl (m 11 - m 10),
           D := fl (m 15 - m 14) }
  else if planeType = pk.PLANE_NEAR then
    some { A := fl (m 3 + m 2), B := fl (m 7 + m 6), C := fl (m 11 + m 10),
           D := fl (m 15 + m 14) }
  else none

/-- The expression `plane.A*plane.A + plane.B*plane.B + plane.C*plane.C` of
line 522 with rounding. -/
def sqNormFl (fl : K → K) (plane : Plane K) : K :=
  fl (fl (fl (plane.A * plane.A) + fl (plane.B * plane.B)) + fl (plane.C * plane.C))

/-- How a call of `kmMat4ExtractPlane` ends. -/
inductive PlaneOutcome (K : Type) where
  /-- the `panic` of the `default` branch -/
  | panicked : PlaneOutcome K
  /-- `t` is zero: the four divisions by `t` give NaN or an infinity -/
  | notFinite : PlaneOutcome K
  /-- the plane returned, with finite fields -/
  | returned (plane : Plane K) : PlaneOutcome K

deriving instance DecidableEq for Plane

deriving instance DecidableEq for PlaneOutcome

/-- `func (m *Mat4) kmMat4ExtractPlane(planeType PlaneEnum) *Plane` with
rounding and with the division by a zero `t` kept apart. -/
def kmMat4ExtractPlaneFl (fl : K → K) (pk : PlaneKinds) (Fsqrt32 : K → K) (m : Mat4 K)
    (planeType : Int) : PlaneOutcome K :=
  match planeSwitchFl fl pk m planeType with
  | none => PlaneOutcome.panicked
  | some plane =>
    let t := Fsqrt32 (sqNormFl fl plane)
    if t = 0 then PlaneOutcome.notFinite
    else
      PlaneOutcome.returned
        { A := fl (plane.A / t), B := fl (plane.B / t), C := fl (plane.C / t),
          D := fl (plane.D / t) }

/-- The `float32` values of the cosine at the `float32` numbers nearest to
0.1 and 0.2 (and 1 elsewhere): a table standing for `Fcos32` at these two
angles. -/
def cosTab (t : ℚ) : ℚ :=
  if t = 13421773 / 134217728 then 2086675 / 2097152
  else if t = 13421773 / 67108864 then 16442789 / 16777216 else 1

/-- The `float32` values of the sine at the `float32` numbers nearest to 0.1
and 0.2 (and 0 elsewhere): a table standing for `Fsin32` at these two angles. -/
def sinTab (t : ℚ) : ℚ :=
  if t = 13421773 / 134217728 then 13399415 / 134217728
  else if t = 13421773 / 67108864 then 13332473 / 67108864 else 0

/-! ## Basic facts about the data model -/

theorem finRange_four : List.finRange 4 = [0, 1, 2, 3] := by decide

theorem finRange_sixteen :
    List.finRange 16 = [0, 1, 2, 3, 4, 5, 6, 7, 8, 9, 10, 11, 12, 13, 14, 15] := by decide

omit [LinearOrderedField K] in
theorem Mat4.ext {m n : Mat4 K} (h : ∀ i : Fin 16, m i = n i) : m = n :=
  Mathlib.Vector.ext h

omit [LinearOrderedField K] in
@[simp] theorem setAt_apply (m : Mat4 K) (i j : Fin 16) (v : K) :
    (setAt m i v) j = if j = i then v else m j := by
  unfold setAt Mat4.entry
  by_cases h : j = i
  · subst h; simp [Mathlib.Vector.get_set_same]
  · simp [h, Mathlib.Vector.get_set_of_ne (Ne.symm h)]

@[simp] theorem zeroMat_apply (i : Fin 16) : (zeroMat : Mat4 K) i = 0 :=
  Mathlib.Vector.get_replicate _ _

section mk16
omit [LinearOrderedField K]
variable (a0 a1 a2 a3 a4 a5 a6 a7 a8 a9 a10 a11 a12 a13 a14 a15 : K)

@[simp] theorem mk16_apply_0 :
    (mk16 a0 a1 a2 a3 a4 a5 a6 a7 a8 a9 a10 a11 a12 a13 a14 a15) 0 = a0 := rfl

@[simp] theorem mk16_apply_1 :
    (mk16 a0 a1 a2 a3 a4 a5 a6 a7 a8 a9 a10 a11 a12 a13 a14 a15) 1 = a1 := rfl

@[simp] theorem mk16_apply_2 :
    (mk16 a0 a1 a2 a3 a4 a5 a6 a7 a8 a9 a10 a11 a12 a13 a14 a15) 2 = a2 := rfl

@[simp] theorem mk16_apply_3 :
    (mk16 a0 a1 a2 a3 a4 a5 a6 a7 a8 a9 a10 a11 a12 a13 a14 a15) 3 = a3 := rfl

@[simp] theorem mk16_apply_4 :
    (mk16 a0 a1 a2 a3 a4 a5 a6 a7 a8 a9 a10 a11 a12 a13 a14 a15) 4 = a4 := rfl

@[simp] theorem mk16_apply_5 :
    (mk16 a0 a1 a2 a3 a4 a5 a6 a7 a8 a9 a10 a11 a12 a13 a14 a15) 5 = a5 := rfl

@[simp] theorem mk16_apply_6 :
    (mk16 a0 a1 a2 a3 a4 a5 a6 a7 a8 a9 a10 a11 a12 a13 a14 a15) 6 = a6 := rfl

@[simp] theorem mk16_apply_7 :
    (mk16 a0 a1 a2 a3 a4 a5 a6 a7 a8 a9 a10 a11 a12 a13 a14 a15) 7 = a7 := rfl

@[simp] theorem mk16_apply_8 :
    (mk16 a0 a1 a2 a3 a4 a5 a6 a7 a8 a9 a10 a11 a12 a13 a14 a15) 8 = a8 := rfl

@[simp] theorem mk16_apply_9 :
    (mk16 a0 a1 a2 a3 a4 a5 a6 a7 a8 a9 a10 a11 a12 a13 a14 a15) 9 = a9 := rfl

@[simp] theorem mk16_apply_10 :
    (mk16 a0 a1 a2 a3 a4 a5 a6 a7 a8 a9 a10 a11 a12 a13 a14 a15) 10 = a10 := rfl

@[simp] theorem mk16_apply_11 :
    (mk16 a0 a1 a2 a3 a4 a5 a6 a7 a8 a9 a10 a11 a12 a13 a14 a15) 11 = a11 := rfl

@[simp] theorem mk16_apply_12 :
    (mk16 a0 a1 a2 a3 a4 a5 a6 a7 a8 a9 a10 a11 a12 a13 a14 a15) 12 = a12 := rfl

@[simp] theorem mk16_apply_13 :
    (mk16 a0 a1 a2 a3 a4 a5 a6 a7 a8 a9 a10 a11 a12 a13 a14 a15) 13 = a13 := rfl

@[simp] theorem mk16_apply_14 :
    (mk16 a0 a1 a2 a3 a4 a5 a6 a7 a8 a9 a10 a11 a12 a13 a14 a15) 14 = a14 := rfl

@[simp] theorem mk16_apply_15 :
    (mk16 a0 a1 a2 a3 a4 a5 a6 a7 a8 a9 a10 a11 a12 a13 a14 a15) 15 = a15 := rfl

end mk16

/-! Values of the index maps at the sixteen positions. -/

@[simp] theorem idx_0_0 : idx 0 0 = 0 := rfl

@[simp] theorem idx_0_1 : idx 0 1 = 4 := rfl

@[simp] theorem idx_0_2 : idx 0 2 = 8 := rfl

@[simp] theorem idx_0_3 : idx 0 3 = 12 := rfl

@[simp] theorem idx_1_0 : idx 1 0 = 1 := rfl

@[simp] theorem idx_1_1 : idx 1 1 = 5 := rfl

@[simp] theorem idx_1_2 : idx 1 2 = 9 := rfl

@[simp] theorem idx_1_3 : idx 1 3 = 13 := rfl

@[simp] theorem idx_2_0 : idx 2 0 = 2 := rfl

@[simp] theorem idx_2_1 : idx 2 1 = 6 := rfl

@[simp] theorem idx_2_2 : idx 2 2 = 10 := rfl

@[simp] theorem idx_2_3 : idx 2 3 = 14 := rfl

@[simp] theorem idx_3_0 : idx 3 0 = 3 := rfl

@[simp] theorem idx_3_1 : idx 3 1 = 7 := rfl

@[simp] theorem idx_3_2 : idx 3 2 = 11 := rfl

@[simp] theorem idx_3_3 : idx 3 3 = 15 := rfl

@[simp] theorem idxT_0_0 : idxT 0 0 = 0 := rfl

@[simp] theorem idxT_0_1 : idxT 0 1 = 1 := rfl

@[simp] theorem idxT_0_2 : idxT 0 2 = 2 := rfl

@[simp] theorem idxT_0_3 : idxT 0 3 = 3 := rfl

@[simp] theorem idxT_1_0 : idxT 1 0 = 4 := rfl

@[simp] theorem idxT_1_1 : idxT 1 1 = 5 := rfl

@[simp] theorem idxT_1_2 : idxT 1 2 = 6 := rfl

@[simp] theorem idxT_1_3 : idxT 1 3 = 7 := rfl

@[simp] theorem idxT_2_0 : idxT 2 0 = 8 := rfl

@[simp] theorem idxT_2_1 : idxT 2 1 = 9 := rfl

@[simp] theorem idxT_2_2 : idxT 2 2 = 10 := rfl

@[simp] theorem idxT_2_3 : idxT 2 3 = 11 := rfl

@[simp] theorem idxT_3_0 : idxT 3 0 = 12 := rfl

@[simp] theorem idxT_3_1 : idxT 3 1 = 13 := rfl

@[simp] theorem idxT_3_2 : idxT 3 2 = 14 := rfl

@[simp] theorem idxT_3_3 : idxT 3 3 = 15 := rfl

theorem Identity_eq (m : Mat4 K) :
    Identity m = mk16 1 0 0 0 0 1 0 0 0 0 1 0 0 0 0 1 := by
  apply Mat4.ext
  intro i
  fin_cases i <;> simp [Identity]

theorem ScalarMultiply_apply (m : Mat4 K) (k : K) (i : Fin 16) :
    ScalarMultiply m k i = m i * k := by
  fin_cases i <;> simp [ScalarMultiply, finRange_sixteen]

omit [LinearOrderedField K] in
theorem Assign_eq (m input : Mat4 K) : Assign m input = input := by
  apply Mat4.ext
  intro i
  fin_cases i <;> simp [Assign, finRange_sixteen]

theorem Translation_eq (m : Mat4 K) (x y z : K) :
    Translation m x y z = mk16 1 0 0 0 0 1 0 0 0 0 1 0 x y z 1 := by
  apply Mat4.ext
  intro i
  fin_cases i <;> simp [Translation, Identity_eq]

theorem Transpose_apply (m : Mat4 K) (r c : Fin 4) :
    Transpose m (idx r c) = m (idx c r) := by
  fin_cases r <;> fin_cases c <;> simp [Transpose, finRange_four]

theorem Multiply_apply (m n : Mat4 K) (r c : Fin 4) :
    Multiply m n (idx r c) = ∑ k : Fin 4, m (idx r k) * n (idx k c) := by
  fin_cases r <;> fin_cases c <;> simp [Multiply, Fin.sum_univ_four]

omit [LinearOrderedField K] in
theorem toMatrix_eq (m : Mat4 K) :
    toMatrix m = !![m 0, m 4, m 8, m 12; m 1, m 5, m 9, m 13; m 2, m 6, m 10, m 14;
      m 3, m 7, m 11, m 15] := by
  ext r c
  fin_cases r <;> fin_cases c <;> simp [toMatrix]

theorem Determinant_eq_det (m : Mat4 K) : Determinant m = (toMatrix m).det := by
  have h2 : Fin.succ (2 : Fin 3) = (3 : Fin 4) := rfl
  have h3 : Fin.castSucc (2 : Fin 3) = (2 : Fin 4) := rfl
  rw [toMatrix_eq]
  simp [Matrix.det_succ_row_zero, Fin.sum_univ_succ, Determinant, Fin.succAbove, h2, h3]
  ring

/-! ## Closed forms of the row loops of `gaussj` -/

theorem idx_inj (r c r' c' : Fin 4) : idx r c = idx r' c' ↔ r = r' ∧ c = c' := by
  revert r c r' c'
  decide

omit [LinearOrderedField K] in
@[simp] theorem get_set (m : Mat4 K) (r c r' c' : Fin 4) (v : K) :
    get (set m r c v) r' c' = if r' = r ∧ c' = c then v else get m r' c' := by
  simp [get, set, idx_inj]

omit [LinearOrderedField K] in
theorem get_swap (m : Mat4 K) (r1 c1 r2 c2 r c : Fin 4) :
    get (swap m r1 c1 r2 c2) r c =
      if r = r2 ∧ c = c2 then get m r1 c1
      else if r = r1 ∧ c = c1 then get m r2 c2 else get m r c := by
  simp [swap]

omit [LinearOrderedField K] in
theorem get_swapRows (m : Mat4 K) (p q r c : Fin 4) :
    get (swapRows m p q) r c = get m (Equiv.swap p q r) c := by
  simp only [swapRows, finRange_four, List.foldl, get_swap]
  by_cases hq : r = q
  · subst hq
    fin_cases c <;> simp
  · by_cases hp : r = p
    · subst hp
      fin_cases c <;> simp [hq]
    · rw [Equiv.swap_apply_of_ne_of_ne hp hq]
      simp [hp, hq]

theorem get_scaleRow (m : Mat4 K) (q r c : Fin 4) (v : K) :
    get (scaleRow m q v) r c = if r = q then get m q c * v else get m r c := by
  simp only [scaleRow, finRange_four, List.foldl, get_set]
  by_cases hq : r = q
  · subst hq
    fin_cases c <;> simp
  · simp [hq]

theorem get_elimRowA (a : Mat4 K) (ll q r c : Fin 4) (dum : K) (h : ll ≠ q) :
    get (elimRowA a ll q dum) r c =
      if r = ll then get a ll c - get a q c * dum else get a r c := by
  simp only [elimRowA, finRange_four, List.foldl, get_set]
  by_cases hr : r = ll
  · subst hr
    fin_cases c <;> simp [Ne.symm h]
  · simp [hr]

theorem eliminate_fst_foldl (q : Fin 4) (ls : List (Fin 4)) (ab : Mat4 K × Mat4 K) :
    (ls.foldl
      (fun ab ll =>
        if ll ≠ q then
          let dum := get ab.1 ll q
          let a := set ab.1 ll q 0
          let a := elimRowA a ll q dum
          let b := elimRowB a ab.2 ll q dum
          (a, b)
        else ab) ab).1 = ls.foldl (elimStepA q) ab.1 := by
  induction ls generalizing ab with
  | nil => rfl
  | cons l ls ih =>
    simp only [List.foldl]
    rw [ih]
    congr 1
    by_cases h : l = q <;> simp [elimStepA, h]

theorem get_elimStepA (q : Fin 4) (a : Mat4 K) (ll r c : Fin 4) :
    get (elimStepA q a ll) r c =
      if r = ll ∧ ll ≠ q then (if c = q then 0 else get a ll c) - get a q c * get a ll q
      else get a r c := by
  unfold elimStepA
  by_cases h : ll = q
  · simp [h]
  · simp only [ne_eq, h, not_false_eq_true, if_true, get_elimRowA _ _ _ _ _ _ h, get_set, and_true]
    by_cases hr : r = ll
    · subst hr
      simp [Ne.symm h]
    · simp [hr]

theorem get_eliminate_fst (a b : Mat4 K) (q r c : Fin 4) :
    get (eliminate a b q).1 r c =
      if r = q then get a q c
      else (if c = q then 0 else get a r c) - get a q c * get a r q := by
  unfold eliminate
  rw [eliminate_fst_foldl]
  simp only [finRange_four, List.foldl, get_elimStepA]
  fin_cases r <;> fin_cases q <;> simp

theorem get_reduce_a (st : GaussState K) (r c : Fin 4) :
    get (reduce st).a r c =
      if r = st.icol then
        (if c = st.icol then 1 else get st.a st.icol c) * (1 / get st.a st.icol st.icol)
      else
        (if c = st.icol then 0 else get st.a r c) -
          (if c = st.icol then 1 else get st.a st.icol c) * (1 / get st.a st.icol st.icol) *
            get st.a r st.icol := by
  simp only [reduce, get_eliminate_fst, get_scaleRow, get_set]
  by_cases hr : r = st.icol
  · simp [hr]
  · simp [hr]

/-! ## The pivot search -/

theorem searchRow_inv (a : Mat4 K) (ipiv : Fin 4 → Nat) (j : Fin 4) (hj : ipiv j ≠ 1)
    (ks : List (Fin 4)) (seen : Fin 4 → Fin 4 → Prop) (p : Pivot K)
    (h : SearchInv a ipiv seen p) :
    SearchInv a ipiv (fun j' k' => seen j' k' ∨ (j' = j ∧ k' ∈ ks))
      (ks.foldl
        (fun p k =>
          if ipiv k = 0 then
            if Fabs32 (get a j k) ≥ p.big then
              { big := Fabs32 (get a j k), irow := j, icol := k }
            else p
          else p) p) := by
  induction ks generalizing seen p with
  | nil =>
    simp only [List.foldl, List.not_mem_nil, and_false, or_false]
    exact h
  | cons k ks ih =>
    simp only [List.foldl]
    have key : SearchInv a ipiv (fun j' k' => seen j' k' ∨ (j' = j ∧ k' = k))
        (if ipiv k = 0 then
            if Fabs32 (get a j k) ≥ p.big then
              { big := Fabs32 (get a j k), irow := j, icol := k }
            else p
          else p) := by
      by_cases hk : ipiv k = 0
      · by_cases hb : Fabs32 (get a j k) ≥ p.big
        · simp only [hk, hb, if_true]
          refine ⟨le_trans h.nonneg hb, ?_, ?_, ?_⟩
          · rintro j' k' (hs | ⟨rfl, rfl⟩) he
            · exact le_trans (h.bound j' k' hs he) hb
            · exact le_refl _
          · intro _
            exact ⟨⟨hj, hk⟩, rfl⟩
          · intro hne
            exact absurd ⟨j, k, Or.inr ⟨rfl, rfl⟩, hj, hk⟩ hne
        · simp only [hk, hb, if_true, if_false]
          have hlt : Fabs32 (get a j k) < p.big := lt_of_not_ge hb
          have hex : ∃ j' k', seen j' k' ∧ Eligible ipiv j' k' := by
            by_contra hne
            have h0 := h.fresh hne
            rw [h0] at hlt
            exact absurd hlt (not_lt.mpr (abs_nonneg _))
          refine ⟨h.nonneg, ?_, ?_, ?_⟩
          · rintro j' k' (hs | ⟨rfl, rfl⟩) he
            · exact h.bound j' k' hs he
            · exact le_of_lt hlt
          · intro _
            exact h.attained hex
          · intro hne
            obtain ⟨j', k', hs, he⟩ := hex
            exact absurd ⟨j', k', Or.inl hs, he⟩ hne
      · simp only [hk, if_false]
        refine ⟨h.nonneg, ?_, ?_, ?_⟩
        · rintro j' k' (hs | ⟨rfl, rfl⟩) he
          · exact h.bound j' k' hs he
          · exact absurd he.2 hk
        · rintro ⟨j', k', hs | ⟨rfl, rfl⟩, he⟩
          · exact h.attained ⟨j', k', hs, he⟩
          · exact absurd he.2 hk
        · intro hne
          apply h.fresh
          rintro ⟨j', k', hs, he⟩
          exact hne ⟨j', k', Or.inl hs, he⟩
    have hseen : (fun j' k' => seen j' k' ∨ (j' = j ∧ k' ∈ k :: ks)) =
        (fun j' k' => (seen j' k' ∨ (j' = j ∧ k' = k)) ∨ (j' = j ∧ k' ∈ ks)) := by
      funext j' k'
      simp only [List.mem_cons, eq_iff_iff]
      tauto
    rw [hseen]
    exact ih _ _ key


theorem search_inv (a : Mat4 K) (ipiv : Fin 4 → Nat) (js : List (Fin 4))
    (seen : Fin 4 → Fin 4 → Prop) (p : Pivot K) (h : SearchInv a ipiv seen p) :
    SearchInv a ipiv (fun j' k' => seen j' k' ∨ j' ∈ js)
      (js.foldl (fun p j => if ipiv j ≠ 1 then searchRow a ipiv j p else p) p) := by
  induction js generalizing seen p with
  | nil =>
    simp only [List.foldl, List.not_mem_nil, or_false]
    exact h
  | cons j js ih =>
    simp only [List.foldl]
    have key : SearchInv a ipiv (fun j' k' => seen j' k' ∨ j' = j)
        (if ipiv j ≠ 1 then searchRow a ipiv j p else p) := by
      by_cases hj : ipiv j = 1
      · simp only [hj, ne_eq, not_true_eq_false, if_false]
        refine ⟨h.nonneg, ?_, ?_, ?_⟩
        · rintro j' k' (hs | rfl) he
          · exact h.bound j' k' hs he
          · exact absurd hj he.1
        · rintro ⟨j', k', hs | rfl, he⟩
          · exact h.attained ⟨j', k', hs, he⟩
          · exact absurd hj he.1
        · intro hne
          apply h.fresh
          rintro ⟨j', k', hs, he⟩
          exact hne ⟨j', k', Or.inl hs, he⟩
      · simp only [ne_eq, hj, not_false_eq_true, if_true]
        have hrow := searchRow_inv a ipiv j hj (List.finRange 4) seen p h
        have hseen : (fun j' k' => seen j' k' ∨ (j' = j ∧ k' ∈ List.finRange 4)) =
            (fun j' k' => seen j' k' ∨ j' = j) := by
          funext j' k'
          simp [List.mem_finRange]
        rw [hseen] at hrow
        exact hrow
    have hseen : (fun j' k' => seen j' k' ∨ j' ∈ j :: js) =
        (fun (j' k' : Fin 4) => (seen j' k' ∨ j' = j) ∨ j' ∈ js) := by
      funext j' k'
      simp only [List.mem_cons, eq_iff_iff]
      tauto
    rw [hseen]
    exact ih _ _ key


/-- The pivot search inspects every eligible entry, returns a bound on their
magnitudes, and, when there is an eligible entry, returns one that attains it. -/
theorem search_spec (a : Mat4 K) (ipiv : Fin 4 → Nat) (irow icol : Fin 4) :
    (∀ j k, Eligible ipiv j k → Fabs32 (get a j k) ≤ (search a ipiv irow icol).big) ∧
    ((∃ j k, Eligible ipiv j k) →
      Eligible ipiv (search a ipiv irow icol).irow (search a ipiv irow icol).icol ∧
      (search a ipiv irow icol).big =
        Fabs32 (get a (search a ipiv irow icol).irow (search a ipiv irow icol).icol)) := by
  have h0 : SearchInv a ipiv (fun _ _ => False) ({ big := 0, irow := irow, icol := icol } : Pivot K) :=
    ⟨le_refl _, fun _ _ hs => hs.elim, fun ⟨_, _, hs, _⟩ => hs.elim, fun _ => rfl⟩
  have h := search_inv a ipiv (List.finRange 4) _ _ h0
  refine ⟨fun j k he => h.bound j k (Or.inr (List.mem_finRange j)) he, ?_⟩
  rintro ⟨j, k, he⟩
  exact h.attained ⟨j, k, Or.inr (List.mem_finRange j), he⟩

/-! ## The exchange step -/

/-- One Gauss-Jordan exchange step on a tableau `S w = v`: after pivoting on
`(q, q)` the roles of `w q` and `v q` are exchanged (with a sign). -/
theorem pivot_tableau (S : Fin 4 → Fin 4 → K) (q : Fin 4) (pinv : K)
    (hp : S q q * pinv = 1) (w v : Fin 4 → K) (h : ∀ r, ∑ c, S r c * w c = v r) (r : Fin 4) :
    ∑ c, (if r = q then (if c = q then 1 else S q c) * pinv
          else (if c = q then 0 else S r c) - (if c = q then 1 else S q c) * pinv * S r q) *
        (if c = q then -(v q) else w c) =
      if r = q then -(w q) else v r := by
  have hq := h q
  have hr := h r
  rw [← Finset.add_sum_erase _ _ (Finset.mem_univ q)] at hq hr ⊢
  by_cases hrq : r = q
  · subst hrq
    have e : ∑ c ∈ Finset.univ.erase r,
        (if r = r then (if c = r then 1 else S r c) * pinv
          else (if c = r then 0 else S r c) - (if c = r then 1 else S r c) * pinv * S r r) *
        (if c = r then -(v r) else w c) =
        pinv * ∑ c ∈ Finset.univ.erase r, S r c * w c := by
      rw [Finset.mul_sum]
      refine Finset.sum_congr rfl fun c hc => ?_
      have hne : c ≠ r := Finset.ne_of_mem_erase hc
      simp only [hne, if_false, if_true]
      ring
    rw [e]
    simp only [if_true]
    linear_combination pinv * hq - w r * hp
  · have e : ∑ c ∈ Finset.univ.erase q,
        (if r = q then (if c = q then 1 else S q c) * pinv
          else (if c = q then 0 else S r c) - (if c = q then 1 else S q c) * pinv * S r q) *
        (if c = q then -(v q) else w c) =
        ∑ c ∈ Finset.univ.erase q, S r c * w c -
          pinv * S r q * ∑ c ∈ Finset.univ.erase q, S q c * w c := by
      rw [Finset.mul_sum, ← Finset.sum_sub_distrib]
      refine Finset.sum_congr rfl fun c hc => ?_
      have hne : c ≠ q := Finset.ne_of_mem_erase hc
      simp only [hne, hrq, if_false]
      ring
    rw [e]
    simp only [hrq, if_false, if_true]
    linear_combination hr - pinv * S r q * hq + S r q * w q * hp

/-! ## The tableau invariant -/

theorem tableau_init (a : Mat4 K) : Tableau (toMatrix a) a (fun _ => 0) 1 := by
  intro x r
  simp [mixIn, mixOut, Matrix.mulVec, Matrix.dotProduct, toMatrix, get]

theorem tableau_swap (A : Matrix (Fin 4) (Fin 4) K) (S S1 : Mat4 K) (ipiv : Fin 4 → Nat)
    (ρ : Equiv.Perm (Fin 4)) (p q : Fin 4) (hp : ipiv p = 0) (hq : ipiv q = 0)
    (hS : ∀ r c, get S1 r c = get S (Equiv.swap p q r) c) (h : Tableau A S ipiv ρ) :
    Tableau A S1 ipiv (ρ * Equiv.swap p q) := by
  intro x r
  have hfix : ∀ c, ipiv c ≠ 0 → Equiv.swap p q c = c := by
    intro c hc
    apply Equiv.swap_apply_of_ne_of_ne
    · rintro rfl; exact hc hp
    · rintro rfl; exact hc hq
  have hin : mixIn ipiv (ρ * Equiv.swap p q) x (A.mulVec x) = mixIn ipiv ρ x (A.mulVec x) := by
    funext c
    unfold mixIn
    by_cases hc : ipiv c = 0
    · simp [hc]
    · simp [hc, hfix c hc]
  have hzero : ∀ c, ipiv c = 0 → ipiv (Equiv.swap p q c) = 0 := by
    intro c hc
    rw [Equiv.swap_apply_def]
    split_ifs <;> assumption
  rw [hin]
  simp only [hS]
  rw [h x (Equiv.swap p q r)]
  unfold mixOut
  by_cases hr : ipiv r = 0
  · simp [hr, hzero r hr]
  · simp [hr, hfix r hr]

theorem tableau_pivot (A : Matrix (Fin 4) (Fin 4) K) (S S2 : Mat4 K) (ipiv : Fin 4 → Nat)
    (ρ : Equiv.Perm (Fin 4)) (q : Fin 4) (hq : ipiv q = 0) (hpiv : get S q q ≠ 0)
    (hS : ∀ r c, get S2 r c =
      if r = q then (if c = q then 1 else get S q c) * (1 / get S q q)
      else (if c = q then 0 else get S r c) -
        (if c = q then 1 else get S q c) * (1 / get S q q) * get S r q)
    (h : Tableau A S ipiv ρ) :
    Tableau A S2 (Function.update ipiv q 1) ρ := by
  intro x r
  have key := pivot_tableau (fun r c => get S r c) q (1 / get S q q)
    (by field_simp) (mixIn ipiv ρ x (A.mulVec x)) (mixOut ipiv ρ x (A.mulVec x)) (h x) r
  have hin : mixIn (Function.update ipiv q 1) ρ x (A.mulVec x) =
      fun c => if c = q then -(mixOut ipiv ρ x (A.mulVec x) q)
        else mixIn ipiv ρ x (A.mulVec x) c := by
    funext c
    by_cases hc : c = q
    · subst hc; simp [mixIn, mixOut, hq]
    · simp [mixIn, hc, Function.update_noteq hc]
  have hout : mixOut (Function.update ipiv q 1) ρ x (A.mulVec x) r =
      if r = q then -(mixIn ipiv ρ x (A.mulVec x) q)
        else mixOut ipiv ρ x (A.mulVec x) r := by
    by_cases hr : r = q
    · subst hr; simp [mixIn, mixOut, hq]
    · simp [mixOut, hr, Function.update_noteq hr]
  rw [hin, hout, ← key]
  simp only [hS]

theorem tableau_singular (A : Matrix (Fin 4) (Fin 4) K) (S : Mat4 K) (ipiv : Fin 4 → Nat)
    (ρ : Equiv.Perm (Fin 4)) (r : Fin 4) (hr : ipiv r = 0)
    (hz : ∀ c, ipiv c = 0 → get S r c = 0) (h : Tableau A S ipiv ρ) : A.det = 0 := by
  by_contra hdet
  have hu : IsUnit A.det := isUnit_iff_ne_zero.mpr hdet
  have hx : A.mulVec (A⁻¹.mulVec (Pi.single (ρ r) 1)) = Pi.single (ρ r) 1 := by
    rw [Matrix.mulVec_mulVec, Matrix.mul_nonsing_inv A hu, Matrix.one_mulVec]
  have := h (A⁻¹.mulVec (Pi.single (ρ r) 1)) r
  rw [hx] at this
  have hl : ∑ c, get S r c * mixIn ipiv ρ (A⁻¹.mulVec (Pi.single (ρ r) 1)) (Pi.single (ρ r) 1) c
      = 0 := by
    apply Finset.sum_eq_zero
    intro c _
    by_cases hc : ipiv c = 0
    · simp [hz c hc]
    · have hne : c ≠ r := by rintro rfl; exact hc hr
      simp [mixIn, hc, hne]
  rw [hl] at this
  simp [mixOut, hr] at this

theorem tableau_final (A : Matrix (Fin 4) (Fin 4) K) (S F : Mat4 K) (ipiv : Fin 4 → Nat)
    (ρ : Equiv.Perm (Fin 4)) (hall : ∀ c, ipiv c ≠ 0)
    (hF : ∀ k c, get F k c = get S k (ρ.symm c)) (h : Tableau A S ipiv ρ) :
    toMatrix F * A = 1 := by
  have hmv : ∀ x : Fin 4 → K, (toMatrix F).mulVec (A.mulVec x) = x := by
    intro x
    funext r
    have := h x r
    simp only [mixIn, mixOut, hall, if_false, mul_neg, Finset.sum_neg_distrib, neg_inj] at this
    rw [← this]
    simp only [Matrix.mulVec, Matrix.dotProduct]
    rw [← Equiv.sum_comp ρ]
    refine Finset.sum_congr rfl fun c _ => ?_
    show get F r (ρ c) * _ = _
    rw [hF]
    simp
  apply Matrix.toLin'.injective
  apply LinearMap.ext
  intro x
  simp [Matrix.toLin'_mul, hmv]

/-! ## The main loop of `gaussj` -/

theorem permOf_snoc (indxr indxc : Fin 4 → Fin 4) (done : List (Fin 4)) (i p q : Fin 4)
    (hi : i ∉ done) :
    permOf (Function.update indxr i p) (Function.update indxc i q) (done ++ [i]) =
      permOf indxr indxc done * Equiv.swap p q := by
  unfold permOf
  rw [List.map_append, List.prod_append]
  congr 1
  · congr 1
    apply List.map_congr_left
    intro j hj
    have hne : j ≠ i := by rintro rfl; exact hi hj
    simp [Function.update_noteq hne]
  · simp

theorem get_choosePivot_a (st : GaussState K) (i r c : Fin 4) :
    get (choosePivot st i).a r c =
      get st.a (Equiv.swap (choosePivot st i).irow (choosePivot st i).icol r) c := by
  simp only [choosePivot]
  split_ifs with h
  · rw [get_swapRows]
  · rw [not_not] at h
    rw [h, Equiv.swap_self]
    rfl

theorem exists_free (A : Matrix (Fin 4) (Fin 4) K) (done : List (Fin 4)) (st : GaussState K)
    (h : GaussInv A done st) (hlen : done.length < 4) : ∃ c, st.ipiv c = 0 := by
  have hc := h.count
  have hpos : 0 < (Finset.univ.filter fun c => st.ipiv c = 0).card := by omega
  obtain ⟨c, hc⟩ := Finset.card_pos.mp hpos
  exact ⟨c, (Finset.mem_filter.mp hc).2⟩

theorem choosePivot_spec (A : Matrix (Fin 4) (Fin 4) K) (done : List (Fin 4))
    (st : GaussState K) (i : Fin 4) (h : GaussInv A done st) (hi : i ∉ done)
    (hlen : done.length < 4) :
    st.ipiv (choosePivot st i).icol = 0 ∧
    (choosePivot st i).ipiv = Function.update st.ipiv (choosePivot st i).icol 1 ∧
    Tableau A (choosePivot st i).a st.ipiv
      (permOf (choosePivot st i).indxr (choosePivot st i).indxc (done ++ [i])) ∧
    (get (choosePivot st i).a (choosePivot st i).icol (choosePivot st i).icol = 0 →
      A.det = 0) := by
  obtain ⟨c0, hc0⟩ := exists_free A done st h hlen
  have hs := search_spec st.a st.ipiv st.irow st.icol
  have hel := hs.2 ⟨c0, c0, by rw [hc0]; decide, hc0⟩
  have hrow : st.ipiv (choosePivot st i).irow = 0 := by
    rcases h.binary (search st.a st.ipiv st.irow st.icol).irow with h0 | h1
    · exact h0
    · exact absurd h1 hel.1.1
  have hcol : st.ipiv (choosePivot st i).icol = 0 := hel.1.2
  refine ⟨hcol, ?_, ?_, ?_⟩
  · show Function.update st.ipiv (choosePivot st i).icol
      (st.ipiv (choosePivot st i).icol + 1) = _
    rw [hcol]
  · have hperm : permOf (choosePivot st i).indxr (choosePivot st i).indxc (done ++ [i]) =
        permOf st.indxr st.indxc done *
          Equiv.swap (choosePivot st i).irow (choosePivot st i).icol :=
      permOf_snoc st.indxr st.indxc done i _ _ hi
    rw [hperm]
    exact tableau_swap A st.a _ st.ipiv _ _ _ hrow hcol (get_choosePivot_a st i) h.tableau
  · intro hz
    rw [get_choosePivot_a, Equiv.swap_apply_right] at hz
    have hbig : (search st.a st.ipiv st.irow st.icol).big = 0 := by
      rw [hel.2]
      show Fabs32 (get st.a (choosePivot st i).irow (choosePivot st i).icol) = 0
      rw [hz]
      simp [Fabs32]
    apply tableau_singular A st.a st.ipiv _ (choosePivot st i).irow hrow _ h.tableau
    intro c hc
    have hb := hs.1 (choosePivot st i).irow c ⟨by rw [hrow]; decide, hc⟩
    rw [hbig] at hb
    exact abs_eq_zero.mp (le_antisymm hb (abs_nonneg _))

theorem step_inv (A : Matrix (Fin 4) (Fin 4) K) (done : List (Fin 4))
    (st : GaussState K) (i : Fin 4) (h : GaussInv A done st) (hi : i ∉ done)
    (hlen : done.length < 4)
    (hpiv : get (choosePivot st i).a (choosePivot st i).icol (choosePivot st i).icol ≠ 0) :
    GaussInv A (done ++ [i]) (reduce (choosePivot st i)) := by
  obtain ⟨hcol, hipiv, htab, -⟩ := choosePivot_spec A done st i h hi hlen
  refine ⟨?_, ?_, ?_⟩
  · intro c
    show (choosePivot st i).ipiv c = 0 ∨ (choosePivot st i).ipiv c = 1
    rw [hipiv]
    by_cases hc : c = (choosePivot st i).icol
    · right; rw [hc]; simp
    · rw [Function.update_noteq hc]; exact h.binary c
  · show (Finset.univ.filter fun c => (choosePivot st i).ipiv c = 0).card + (done ++ [i]).length = 4
    rw [hipiv]
    have hfil : (Finset.univ.filter fun c => Function.update st.ipiv (choosePivot st i).icol 1 c = 0) =
        (Finset.univ.filter fun c => st.ipiv c = 0).erase (choosePivot st i).icol := by
      ext c
      simp only [Finset.mem_filter, Finset.mem_univ, true_and, Finset.mem_erase]
      by_cases hc : c = (choosePivot st i).icol
      · subst hc; simp
      · simp [Function.update_noteq hc, hc]
    rw [hfil, Finset.card_erase_of_mem (by simp [hcol]), List.length_append]
    have hc := h.count
    have hpos : 0 < (Finset.univ.filter fun c => st.ipiv c = 0).card := by omega
    simp only [List.length_singleton]
    omega
  · show Tableau A (reduce (choosePivot st i)).a (choosePivot st i).ipiv
      (permOf (choosePivot st i).indxr (choosePivot st i).indxc (done ++ [i]))
    rw [hipiv]
    exact tableau_pivot A _ _ st.ipiv _ _ hcol hpiv (get_reduce_a _) htab

theorem gaussjLoop_spec (A : Matrix (Fin 4) (Fin 4) K) (is done : List (Fin 4))
    (st : GaussState K) (h : GaussInv A done st) (hnd : (done ++ is).Nodup) :
    ((gaussjLoop is st).1 = true → GaussInv A (done ++ is) (gaussjLoop is st).2) ∧
    ((gaussjLoop is st).1 = false → A.det = 0) := by
  induction is generalizing done st with
  | nil =>
    simp only [gaussjLoop, List.append_nil]
    exact ⟨fun _ => h, fun hf => by cases hf⟩
  | cons i is ih =>
    have hi : i ∉ done := by
      intro hmem
      have := List.nodup_append.mp hnd
      exact this.2.2 hmem (List.mem_cons_self i is)
    have hlen : done.length < 4 := by
      have := List.Nodup.length_le_card hnd
      simp only [List.length_append, List.length_cons, Fintype.card_fin] at this
      omega
    have hnd2 : ((done ++ [i]) ++ is).Nodup := by simpa using hnd
    simp only [gaussjLoop]
    by_cases hz : get (choosePivot st i).a (choosePivot st i).icol (choosePivot st i).icol = 0
    · simp only [hz, if_true]
      exact ⟨fun hf => (by cases hf), fun _ => (choosePivot_spec A done st i h hi hlen).2.2.2 hz⟩
    · simp only [hz, if_false]
      have := ih (done ++ [i]) (reduce (choosePivot st i))
        (step_inv A done st i h hi hlen hz) hnd2
      simpa using this

omit [LinearOrderedField K] in
theorem get_swapCols (a : Mat4 K) (p q k c : Fin 4) :
    get ((List.finRange 4).foldl (fun a k => swap a k p k q) a) k c =
      get a k (Equiv.swap p q c) := by
  simp only [finRange_four, List.foldl, get_swap]
  by_cases hq : c = q
  · subst hq
    fin_cases k <;> simp
  · by_cases hp : c = p
    · subst hp
      fin_cases k <;> simp [hq]
    · rw [Equiv.swap_apply_of_ne_of_ne hp hq]
      simp [hp, hq]

omit [LinearOrderedField K] in
theorem get_unscramble (indxr indxc : Fin 4 → Fin 4) (ls : List (Fin 4)) (a : Mat4 K)
    (k c : Fin 4) :
    get (unscramble indxr indxc ls a) k c =
      get a k ((ls.map fun l => Equiv.swap (indxr l) (indxc l)).prod c) := by
  induction ls generalizing a c with
  | nil => simp [unscramble]
  | cons l ls ih =>
    have hstep : ∀ k c, get (if indxr l ≠ indxc l then
          (List.finRange 4).foldl (fun a k => swap a k (indxr l) k (indxc l)) a else a) k c =
        get a k (Equiv.swap (indxr l) (indxc l) c) := by
      intro k c
      split_ifs with hne
      · exact get_swapCols a _ _ k c
      · rw [not_not] at hne
        rw [hne, Equiv.swap_self]
        rfl
    have hun : unscramble indxr indxc (l :: ls) a =
        unscramble indxr indxc ls (if indxr l ≠ indxc l then
          (List.finRange 4).foldl (fun a k => swap a k (indxr l) k (indxc l)) a else a) := rfl
    rw [hun, ih, hstep, List.map_cons, List.prod_cons]
    rfl

theorem permOf_reverse (indxr indxc : Fin 4 → Fin 4) (done : List (Fin 4)) :
    (done.reverse.map fun l => Equiv.swap (indxr l) (indxc l)).prod =
      (permOf indxr indxc done)⁻¹ := by
  unfold permOf
  rw [List.prod_inv_reverse, List.map_map, List.map_reverse]
  congr 2

/-- Gauss-Jordan elimination, as `gaussj` runs it on `*a`: when it returns
`true`, `*a` holds a left inverse of the matrix it was called on; it returns
`false` only on a matrix of determinant zero. -/
theorem gaussj_spec (a b : Mat4 K) :
    ((gaussj a b).1 = true → toMatrix (gaussj a b).2.1 * toMatrix a = 1) ∧
    ((gaussj a b).1 = false → (toMatrix a).det = 0) := by
  have h0 : GaussInv (toMatrix a) []
      ({ a := a, b := b, icol := 0, irow := 0,
         indxc := fun _ => 0, indxr := fun _ => 0, ipiv := fun _ => 0 } : GaussState K) :=
    ⟨fun _ => Or.inl rfl, by simp, by simpa [permOf] using tableau_init a⟩
  have hnd : (([] : List (Fin 4)) ++ List.finRange 4).Nodup := by
    simpa using List.nodup_finRange 4
  have hl := gaussjLoop_spec (toMatrix a) (List.finRange 4) [] _ h0 hnd
  simp only [gaussj]
  split_ifs with hres
  · exact ⟨fun hf => (by cases hf), fun _ => hl.2 hres⟩
  · refine ⟨fun _ => ?_, fun hf => by cases hf⟩
    have htrue := Bool.eq_true_of_not_eq_false hres
    have hinv := hl.1 htrue
    rw [List.nil_append] at hinv
    have hall : ∀ c, (gaussjLoop (List.finRange 4)
        ({ a := a, b := b, icol := 0, irow := 0,
           indxc := fun _ => 0, indxr := fun _ => 0, ipiv := fun _ => 0 } : GaussState K)).2.ipiv c ≠ 0 := by
      intro c hc
      have hcount := hinv.count
      simp only [List.length_finRange, add_left_eq_self, Finset.card_eq_zero] at hcount
      have : c ∈ (Finset.univ.filter fun c => (gaussjLoop (List.finRange 4)
        ({ a := a, b := b, icol := 0, irow := 0,
           indxc := fun _ => 0, indxr := fun _ => 0, ipiv := fun _ => 0 } : GaussState K)).2.ipiv c = 0) := by
        simp [hc]
      rw [hcount] at this
      exact absurd this (Finset.not_mem_empty c)
    apply tableau_final (toMatrix a) _ _ _ _ hall _ hinv.tableau
    intro k c
    rw [get_unscramble, permOf_reverse]
    rfl

/-! ## From arrays to matrices -/

theorem toMatrix_injective {m n : Mat4 K} (h : toMatrix m = toMatrix n) : m = n := by
  apply Mat4.ext
  intro i
  have hrc : ∀ r c : Fin 4, m (idx r c) = n (idx r c) := fun r c => congrFun (congrFun h r) c
  fin_cases i
  · exact hrc 0 0
  · exact hrc 1 0
  · exact hrc 2 0
  · exact hrc 3 0
  · exact hrc 0 1
  · exact hrc 1 1
  · exact hrc 2 1
  · exact hrc 3 1
  · exact hrc 0 2
  · exact hrc 1 2
  · exact hrc 2 2
  · exact hrc 3 2
  · exact hrc 0 3
  · exact hrc 1 3
  · exact hrc 2 3
  · exact hrc 3 3

theorem toMatrix_Multiply (m n : Mat4 K) :
    toMatrix (Multiply m n) = toMatrix m * toMatrix n := by
  ext r c
  simp only [toMatrix, Matrix.of_apply, Matrix.mul_apply]
  exact Multiply_apply m n r c

theorem toMatrix_Identity (m : Mat4 K) : toMatrix (Identity m) = 1 := by
  ext r c
  rw [Identity_eq]
  fin_cases r <;> fin_cases c <;> simp [toMatrix]

theorem Inverse_eq (m : Mat4 K) :
    Inverse m =
      if (gaussj m (Identity zeroMat)).1 = false then (false, m)
      else (true, (gaussj m (Identity zeroMat)).2.1) := by
  simp only [Inverse, Assign_eq]

theorem Inverse_of_det_ne_zero (M : Mat4 K) (h : (toMatrix M).det ≠ 0) :
    (Inverse M).1 = true ∧ toMatrix (Inverse M).2 * toMatrix M = 1 := by
  have hs := gaussj_spec M (Identity zeroMat)
  rw [Inverse_eq]
  split_ifs with hf
  · exact absurd (hs.2 hf) h
  · exact ⟨rfl, hs.1 (Bool.eq_true_of_not_eq_false hf)⟩

theorem Inverse_of_det_eq_zero (M : Mat4 K) (h : (toMatrix M).det = 0) :
    (Inverse M).1 = false := by
  have hs := gaussj_spec M (Identity zeroMat)
  rw [Inverse_eq]
  split_ifs with hf
  · rfl
  · exfalso
    have h1 := hs.1 (Bool.eq_true_of_not_eq_false hf)
    have h2 := congrArg Matrix.det h1
    rw [Matrix.det_mul, h, mul_zero, Matrix.det_one] at h2
    exact zero_ne_one h2

theorem Inverse_of_false (M : Mat4 K) (h : (Inverse M).1 = false) : (Inverse M).2 = M := by
  rw [Inverse_eq] at h ⊢
  split_ifs with hf
  · rfl
  · rw [if_neg hf] at h
    cases h

theorem AreEqual_iff (A B : Mat4 K) :
    AreEqual A B = true ↔ ∀ i : Fin 16, |A i - B i| < 1 / 64 := by
  simp only [AreEqual, List.all_eq_true, List.mem_finRange, true_implies, decide_eq_true_eq,
    epsilon, abs_lt]
  refine forall_congr' fun i => ?_
  constructor
  · rintro ⟨h1, h2⟩
    constructor <;> linarith
  · rintro ⟨h1, h2⟩
    constructor <;> linarith

theorem AreEqual_self (A : Mat4 K) : AreEqual A A = true := by
  rw [AreEqual_iff]
  intro i
  simp

theorem Multiply_Identity (M m0 : Mat4 K) : Multiply M (Identity m0) = M := by
  apply toMatrix_injective
  rw [toMatrix_Multiply, toMatrix_Identity, mul_one]

theorem Identity_Multiply (M m0 : Mat4 K) : Multiply (Identity m0) M = M := by
  apply toMatrix_injective
  rw [toMatrix_Multiply, toMatrix_Identity, one_mul]

theorem Transpose_Transpose (M : Mat4 K) : Transpose (Transpose M) = M := by
  apply toMatrix_injective
  ext r c
  simp only [toMatrix, Matrix.of_apply, Transpose_apply]

/-! ## Constructors in closed form and rotations -/

section mk9
variable (a0 a1 a2 a3 a4 a5 a6 a7 a8 : K)

theorem toMatrix3_mk9 :
    toMatrix3 (mk9 a0 a1 a2 a3 a4 a5 a6 a7 a8) = !![a0, a3, a6; a1, a4, a7; a2, a5, a8] := by
  ext r c
  fin_cases r <;> fin_cases c <;> rfl

end mk9

theorem RotationX_eq (Fcos32 Fsin32 : K → K) (m : Mat4 K) (t : K) :
    RotationX Fcos32 Fsin32 m t =
      mk16 1 0 0 0 0 (Fcos32 t) (Fsin32 t) 0 0 (-Fsin32 t) (Fcos32 t) 0 0 0 0 1 := by
  apply Mat4.ext
  intro i
  fin_cases i <;> simp [RotationX]

theorem RotationY_eq (Fcos32 Fsin32 : K → K) (m : Mat4 K) (t : K) :
    RotationY Fcos32 Fsin32 m t =
      mk16 (Fcos32 t) 0 (-Fsin32 t) 0 0 1 0 0 (Fsin32 t) 0 (Fcos32 t) 0 0 0 0 1 := by
  apply Mat4.ext
  intro i
  fin_cases i <;> simp [RotationY]

theorem RotationZ_eq (Fcos32 Fsin32 : K → K) (m : Mat4 K) (t : K) :
    RotationZ Fcos32 Fsin32 m t =
      mk16 (Fcos32 t) (Fsin32 t) 0 0 (-Fsin32 t) (Fcos32 t) 0 0 0 0 1 0 0 0 0 1 := by
  apply Mat4.ext
  intro i
  fin_cases i <;> simp [RotationZ]

theorem RotationQuaternion_eq (m : Mat4 K) (q : Quaternion K) :
    RotationQuaternion m q =
      mk16 (1 - 2 * (q.Y * q.Y + q.Z * q.Z)) (2 * (q.X * q.Y - q.W * q.Z))
        (2 * (q.X * q.Z + q.W * q.Y)) 0
        (2 * (q.X * q.Y + q.W * q.Z)) (1 - 2 * (q.X * q.X + q.Z * q.Z))
        (2 * (q.Y * q.Z - q.W * q.X)) 0
        (2 * (q.X * q.Z - q.W * q.Y)) (2 * (q.Y * q.Z + q.W * q.X))
        (1 - 2 * (q.X * q.X + q.Y * q.Y)) 0 0 0 0 1 := by
  apply Mat4.ext
  intro i
  fin_cases i <;> simp [RotationQuaternion]

theorem RotationPitchYawRoll_eq (Fcos32 Fsin32 : K → K) (m : Mat4 K) (pitch yaw roll : K) :
    RotationPitchYawRoll Fcos32 Fsin32 m pitch yaw roll =
      mk16 (Fcos32 yaw * Fcos32 roll)
        (Fsin32 pitch * Fsin32 yaw * Fcos32 roll - Fcos32 pitch * Fsin32 roll)
        (Fcos32 pitch * Fsin32 yaw * Fcos32 roll + Fsin32 pitch * Fsin32 roll) 0
        (Fcos32 yaw * Fsin32 roll)
        (Fsin32 pitch * Fsin32 yaw * Fsin32 roll + Fcos32 pitch * Fcos32 roll)
        (Fcos32 pitch * Fsin32 yaw * Fsin32 roll - Fsin32 pitch * Fcos32 roll) 0
        (-Fsin32 yaw) (Fsin32 pitch * Fcos32 yaw) (Fcos32 pitch * Fcos32 yaw) 0 0 0 0 1 := by
  apply Mat4.ext
  intro i
  fin_cases i <;> simp [RotationPitchYawRoll]

theorem RotationTranslation_eq (m : Mat4 K) (rotation : Mat3 K) (translation : Vec3 K) :
    RotationTranslation m rotation translation =
      mk16 (rotation 0) (rotation 1) (rotation 2) 0 (rotation 3) (rotation 4) (rotation 5) 0
        (rotation 6) (rotation 7) (rotation 8) 0 translation.X translation.Y translation.Z 1 := by
  apply Mat4.ext
  intro i
  fin_cases i <;> simp [RotationTranslation]

theorem Scaling_eq (m : Mat4 K) (x y z : K) :
    Scaling m x y z = mk16 x 0 0 0 0 y 0 0 0 0 z 0 0 0 0 1 := by
  apply Mat4.ext
  intro i
  fin_cases i <;> simp [Scaling, Identity_eq]

theorem Fill_eq (m : Mat4 K) (v : K) :
    Fill m v = mk16 v v v v v v v v v v v v v v v v := by
  apply Mat4.ext
  intro i
  fin_cases i <;> simp [Fill, finRange_sixteen]

/-- The rotation block of an array given entry by entry. -/
theorem block_mk16 (a0 a1 a2 a3 a4 a5 a6 a7 a8 a9 a10 a11 a12 a13 a14 a15 : K) :
    toMatrix3 (ExtractRotation (mk16 a0 a1 a2 a3 a4 a5 a6 a7 a8 a9 a10 a11 a12 a13 a14 a15)) =
      !![a0, a4, a8; a1, a5, a9; a2, a6, a10] := by
  simp only [ExtractRotation, toMatrix3_mk9, mk16_apply_0, mk16_apply_1, mk16_apply_2,
    mk16_apply_4, mk16_apply_5, mk16_apply_6, mk16_apply_8, mk16_apply_9, mk16_apply_10]

/-- A 3x3 matrix whose rows are orthonormal has `R Rᵀ = 1`. -/
theorem mul_transpose_eq_one (a b c d e f g h i : K)
    (h11 : a * a + b * b + c * c = 1) (h12 : a * d + b * e + c * f = 0)
    (h13 : a * g + b * h + c * i = 0) (h22 : d * d + e * e + f * f = 1)
    (h23 : d * g + e * h + f * i = 0) (h33 : g * g + h * h + i * i = 1) :
    !![a, b, c; d, e, f; g, h, i] * Matrix.transpose !![a, b, c; d, e, f; g, h, i] = 1 := by
  have ht : Matrix.transpose !![a, b, c; d, e, f; g, h, i] = !![a, d, g; b, e, h; c, f, i] := by
    ext r s
    fin_cases r <;> fin_cases s <;> rfl
  have h21 : d * a + e * b + f * c = 0 := by linear_combination h12
  have h31 : g * a + h * b + i * c = 0 := by linear_combination h13
  have h32 : g * d + h * e + i * f = 0 := by linear_combination h23
  rw [ht, Matrix.mul_fin_three, Matrix.one_fin_three, h11, h12, h13, h21, h22, h23, h31, h32, h33]

theorem RotationX_isRotation (Fcos32 Fsin32 : K → K) (m : Mat4 K) (t : K)
    (h : Fcos32 t ^ 2 + Fsin32 t ^ 2 = 1) : IsRotation (RotationX Fcos32 Fsin32 m t) := by
  rw [RotationX_eq]
  refine ⟨?_, ?_, ?_⟩
  · rw [block_mk16]
    apply mul_transpose_eq_one
    · ring
    · ring
    · ring
    · linear_combination h
    · ring
    · linear_combination h
  · rw [block_mk16, Matrix.det_fin_three]
    simp
    linear_combination h
  · simp [Determinant]
    linear_combination h

theorem RotationY_isRotation (Fcos32 Fsin32 : K → K) (m : Mat4 K) (t : K)
    (h : Fcos32 t ^ 2 + Fsin32 t ^ 2 = 1) : IsRotation (RotationY Fcos32 Fsin32 m t) := by
  rw [RotationY_eq]
  refine ⟨?_, ?_, ?_⟩
  · rw [block_mk16]
    apply mul_transpose_eq_one
    · linear_combination h
    · ring
    · ring
    · ring
    · ring
    · linear_combination h
  · rw [block_mk16, Matrix.det_fin_three]
    simp
    linear_combination h
  · simp [Determinant]
    linear_combination h

theorem RotationZ_isRotation (Fcos32 Fsin32 : K → K) (m : Mat4 K) (t : K)
    (h : Fcos32 t ^ 2 + Fsin32 t ^ 2 = 1) : IsRotation (RotationZ Fcos32 Fsin32 m t) := by
  rw [RotationZ_eq]
  refine ⟨?_, ?_, ?_⟩
  · rw [block_mk16]
    apply mul_transpose_eq_one
    · linear_combination h
    · ring
    · ring
    · linear_combination h
    · ring
    · ring
  · rw [block_mk16, Matrix.det_fin_three]
    simp
    linear_combination h
  · simp [Determinant]
    linear_combination h

theorem RotationQuaternion_isRotation (m : Mat4 K) (q : Quaternion K)
    (h : q.X ^ 2 + q.Y ^ 2 + q.Z ^ 2 + q.W ^ 2 = 1) : IsRotation (RotationQuaternion m q) := by
  obtain ⟨x, y, z, w⟩ := q
  simp only at h
  have e0 : 1 - 2 * (y * y + z * z) = x * x + w * w - y * y - z * z := by linear_combination (-1 : K) * h
  have e5 : 1 - 2 * (x * x + z * z) = y * y + w * w - x * x - z * z := by linear_combination (-1 : K) * h
  have e10 : 1 - 2 * (x * x + y * y) = z * z + w * w - x * x - y * y := by linear_combination (-1 : K) * h
  have h3 : (x ^ 2 + y ^ 2 + z ^ 2 + w ^ 2) ^ 3 = 1 := by rw [h]; ring
  have h2 : (x ^ 2 + y ^ 2 + z ^ 2 + w ^ 2) ^ 2 = 1 := by rw [h]; ring
  rw [RotationQuaternion_eq]
  simp only [e0, e5, e10]
  refine ⟨?_, ?_, ?_⟩
  · rw [block_mk16]
    apply mul_transpose_eq_one
    · linear_combination h2
    · ring
    · ring
    · linear_combination h2
    · ring
    · linear_combination h2
  · rw [block_mk16, Matrix.det_fin_three]
    simp
    linear_combination h3
  · simp [Determinant]
    linear_combination h3

/-! ## Frustum planes -/

theorem planeSwitch_eq_none_iff (pk : PlaneKinds) (m : Mat4 K) (planeType : Int) :
    planeSwitch pk m planeType = none ↔
      planeType ≠ pk.PLANE_RIGHT ∧ planeType ≠ pk.PLANE_LEFT ∧ planeType ≠ pk.PLANE_BOTTOM ∧
      planeType ≠ pk.PLANE_TOP ∧ planeType ≠ pk.PLANE_FAR ∧ planeType ≠ pk.PLANE_NEAR := by
  unfold planeSwitch
  split_ifs <;> simp_all

theorem kmMat4ExtractPlane_eq_none_iff (pk : PlaneKinds) (Fsqrt32 : K → K) (m : Mat4 K)
    (planeType : Int) :
    kmMat4ExtractPlane pk Fsqrt32 m planeType = none ↔ planeSwitch pk m planeType = none := by
  unfold kmMat4ExtractPlane
  cases planeSwitch pk m planeType <;> simp

/-- Dividing a non-zero vector by the square root of its squared length gives
a vector of squared length 1, whose square root is 1. -/
theorem normalized_sqrt (Fsqrt32 : K → K)
    (hsq : ∀ x : K, 0 ≤ x → Fsqrt32 x * Fsqrt32 x = x) (hnn : ∀ x : K, 0 ≤ Fsqrt32 x)
    (a b c : K) (hne : a * a + b * b + c * c ≠ 0) :
    Fsqrt32 (a / Fsqrt32 (a * a + b * b + c * c) * (a / Fsqrt32 (a * a + b * b + c * c)) +
        b / Fsqrt32 (a * a + b * b + c * c) * (b / Fsqrt32 (a * a + b * b + c * c)) +
        c / Fsqrt32 (a * a + b * b + c * c) * (c / Fsqrt32 (a * a + b * b + c * c))) = 1 := by
  have hn : 0 ≤ a * a + b * b + c * c :=
    add_nonneg (add_nonneg (mul_self_nonneg a) (mul_self_nonneg b)) (mul_self_nonneg c)
  have ht := hsq _ hn
  have ht0 : Fsqrt32 (a * a + b * b + c * c) ≠ 0 := by
    intro h0
    rw [h0, mul_zero] at ht
    exact hne ht.symm
  have hone : a / Fsqrt32 (a * a + b * b + c * c) * (a / Fsqrt32 (a * a + b * b + c * c)) +
        b / Fsqrt32 (a * a + b * b + c * c) * (b / Fsqrt32 (a * a + b * b + c * c)) +
        c / Fsqrt32 (a * a + b * b + c * c) * (c / Fsqrt32 (a * a + b * b + c * c)) = 1 := by
    field_simp
    linear_combination (-1 : K) * ht
  rw [hone]
  have h1 := hsq 1 zero_le_one
  have hs : (Fsqrt32 1 - 1) * (Fsqrt32 1 + 1) = 0 := by linear_combination h1
  rcases mul_eq_zero.mp hs with h | h
  · linarith
  · have := hnn 1
    linarith

theorem kmMat4ExtractPlane_normalized (pk : PlaneKinds) (Fsqrt32 : K → K) (m : Mat4 K)
    (planeType : Int)
    (hsq : ∀ x : K, 0 ≤ x → Fsqrt32 x * Fsqrt32 x = x) (hnn : ∀ x : K, 0 ≤ Fsqrt32 x)
    (hsel : planeType = pk.PLANE_RIGHT ∨ planeType = pk.PLANE_LEFT ∨
      planeType = pk.PLANE_BOTTOM ∨ planeType = pk.PLANE_TOP ∨ planeType = pk.PLANE_FAR ∨
      planeType = pk.PLANE_NEAR)
    (hne : ∀ p0, planeSwitch pk m planeType = some p0 →
      p0.A * p0.A + p0.B * p0.B + p0.C * p0.C ≠ 0) :
    ∃ plane, kmMat4ExtractPlane pk Fsqrt32 m planeType = some plane ∧
      Fsqrt32 (plane.A * plane.A + plane.B * plane.B + plane.C * plane.C) = 1 := by
  unfold kmMat4ExtractPlane
  cases hp : planeSwitch pk m planeType with
  | none =>
    exfalso
    have := (planeSwitch_eq_none_iff pk m planeType).mp hp
    tauto
  | some p0 =>
    exact ⟨_, rfl, normalized_sqrt Fsqrt32 hsq hnn p0.A p0.B p0.C (hne p0 hp)⟩

/-! ## Ties in the pivot search -/

theorem searchRow_last (a : Mat4 K) (ipiv : Fin 4 → Nat) (j : Fin 4)
    (ks : List (Fin 4)) (hks : ks.Pairwise (· < ·)) (seen : Fin 4 → Fin 4 → Prop) (p : Pivot K)
    (hseen : ∀ j' k', seen j' k' → j' < j ∨ (j' = j ∧ ∀ k ∈ ks, k' < k))
    (h : LastInv a ipiv seen p) :
    LastInv a ipiv (fun j' k' => seen j' k' ∨ (j' = j ∧ k' ∈ ks))
      (ks.foldl
        (fun p k =>
          if ipiv k = 0 then
            if Fabs32 (get a j k) ≥ p.big then
              { big := Fabs32 (get a j k), irow := j, icol := k }
            else p
          else p) p) := by
  induction ks generalizing seen p with
  | nil =>
    simp only [List.foldl, List.not_mem_nil, and_false, or_false]
    exact h
  | cons k ks ih =>
    simp only [List.foldl]
    obtain ⟨hk, hks'⟩ := List.pairwise_cons.mp hks
    have hprev : ∀ j' k', seen j' k' → ScanLe j' k' j k := by
      intro j' k' hs
      rcases hseen j' k' hs with hlt | ⟨rfl, hall⟩
      · exact Or.inl hlt
      · exact Or.inr ⟨rfl, le_of_lt (hall k (List.mem_cons_self k ks))⟩
    have key : LastInv a ipiv (fun j' k' => seen j' k' ∨ (j' = j ∧ k' = k))
        (if ipiv k = 0 then
            if Fabs32 (get a j k) ≥ p.big then
              { big := Fabs32 (get a j k), irow := j, icol := k }
            else p
          else p) := by
      by_cases hz : ipiv k = 0
      · by_cases hb : Fabs32 (get a j k) ≥ p.big
        · simp only [hz, hb, if_true]
          rintro j' k' (hs | ⟨rfl, rfl⟩) _ _
          · exact hprev j' k' hs
          · exact Or.inr ⟨rfl, le_refl _⟩
        · simp only [hz, hb, if_true, if_false]
          rintro j' k' (hs | ⟨rfl, rfl⟩) he heq
          · exact h j' k' hs he heq
          · exact absurd (le_of_eq heq.symm) hb
      · simp only [hz, if_false]
        rintro j' k' (hs | ⟨rfl, rfl⟩) he heq
        · exact h j' k' hs he heq
        · exact absurd he.2 hz
    have hseen' : ∀ j' k', (seen j' k' ∨ (j' = j ∧ k' = k)) →
        j' < j ∨ (j' = j ∧ ∀ k'' ∈ ks, k' < k'') := by
      rintro j' k' (hs | ⟨rfl, rfl⟩)
      · rcases hseen j' k' hs with hlt | ⟨rfl, hall⟩
        · exact Or.inl hlt
        · exact Or.inr ⟨rfl, fun k'' hk'' => hall k'' (List.mem_cons_of_mem k hk'')⟩
      · exact Or.inr ⟨rfl, fun k'' hk'' => hk k'' hk''⟩
    have hset : (fun j' k' => seen j' k' ∨ (j' = j ∧ k' ∈ k :: ks)) =
        (fun j' k' => (seen j' k' ∨ (j' = j ∧ k' = k)) ∨ (j' = j ∧ k' ∈ ks)) := by
      funext j' k'
      simp only [List.mem_cons, eq_iff_iff]
      tauto
    rw [hset]
    exact ih hks' _ _ hseen' key

theorem search_last (a : Mat4 K) (ipiv : Fin 4 → Nat) (js : List (Fin 4))
    (hjs : js.Pairwise (· < ·)) (seen : Fin 4 → Fin 4 → Prop) (p : Pivot K)
    (hseen : ∀ j' k', seen j' k' → ∀ j ∈ js, j' < j) (h : LastInv a ipiv seen p) :
    LastInv a ipiv (fun j' k' => seen j' k' ∨ j' ∈ js)
      (js.foldl (fun p j => if ipiv j ≠ 1 then searchRow a ipiv j p else p) p) := by
  induction js generalizing seen p with
  | nil =>
    simp only [List.foldl, List.not_mem_nil, or_false]
    exact h
  | cons j js ih =>
    simp only [List.foldl]
    obtain ⟨hj, hjs'⟩ := List.pairwise_cons.mp hjs
    have key : LastInv a ipiv (fun j' k' => seen j' k' ∨ j' = j)
        (if ipiv j ≠ 1 then searchRow a ipiv j p else p) := by
      by_cases h1 : ipiv j = 1
      · simp only [h1, ne_eq, not_true_eq_false, if_false]
        rintro j' k' (hs | rfl) he heq
        · exact h j' k' hs he heq
        · exact absurd h1 he.1
      · simp only [ne_eq, h1, not_false_eq_true, if_true]
        have hrow := searchRow_last a ipiv j (List.finRange 4) (List.pairwise_lt_finRange 4)
          seen p (fun j' k' hs => Or.inl (hseen j' k' hs j (List.mem_cons_self j js))) h
        have hset : (fun j' k' => seen j' k' ∨ (j' = j ∧ k' ∈ List.finRange 4)) =
            (fun j' k' => seen j' k' ∨ j' = j) := by
          funext j' k'
          simp [List.mem_finRange]
        rw [hset] at hrow
        exact hrow
    have hseen' : ∀ j' k', (seen j' k' ∨ j' = j) → ∀ j'' ∈ js, j' < j'' := by
      rintro j' k' (hs | rfl) j'' hj''
      · exact hseen j' k' hs j'' (List.mem_cons_of_mem j hj'')
      · exact hj j'' hj''
    have hset : (fun j' k' => seen j' k' ∨ j' ∈ j :: js) =
        (fun (j' k' : Fin 4) => (seen j' k' ∨ j' = j) ∨ j' ∈ js) := by
      funext j' k'
      simp only [List.mem_cons, eq_iff_iff]
      tauto
    rw [hset]
    exact ih hjs' _ _ hseen' key

/-- No eligible entry whose magnitude equals the value of `big` returned by
the pivot search comes after the returned position in scan order. -/
theorem search_last_spec (a : Mat4 K) (ipiv : Fin 4 → Nat) (irow icol j k : Fin 4)
    (he : Eligible ipiv j k) (heq : Fabs32 (get a j k) = (search a ipiv irow icol).big) :
    ScanLe j k (search a ipiv irow icol).irow (search a ipiv irow icol).icol := by
  have h0 : LastInv a ipiv (fun _ _ => False)
      ({ big := 0, irow := irow, icol := icol } : Pivot K) := fun _ _ hs => hs.elim
  have h := search_last a ipiv (List.finRange 4) (List.pairwise_lt_finRange 4) _ _
    (fun _ _ hs => hs.elim) h0
  exact h j k (Or.inr (List.mem_finRange j)) he heq

/-! ## The states reached by the main loop -/

theorem used_step (done : List (Fin 4)) (st : GaussState K) (i : Fin 4)
    (h : UsedInv done st) (hi : i ∉ done) :
    UsedInv (done ++ [i]) (reduce (choosePivot st i)) := by
  intro c
  show Function.update st.ipiv (choosePivot st i).icol
      (st.ipiv (choosePivot st i).icol + 1) c ≠ 0 ↔
    ∃ i' ∈ done ++ [i], Function.update st.indxc i (choosePivot st i).icol i' = c
  have hold : ∀ i' ∈ done, Function.update st.indxc i (choosePivot st i).icol i' = st.indxc i' := by
    intro i' hi'
    have hne : i' ≠ i := by rintro rfl; exact hi hi'
    exact Function.update_noteq hne _ _
  constructor
  · intro hc
    by_cases hcc : c = (choosePivot st i).icol
    · exact ⟨i, by simp, by simp [hcc]⟩
    · rw [Function.update_noteq hcc] at hc
      obtain ⟨i', hi', he⟩ := (h c).mp hc
      exact ⟨i', List.mem_append_left _ hi', by rw [hold i' hi', he]⟩
  · rintro ⟨i', hi', he⟩
    by_cases hcc : c = (choosePivot st i).icol
    · rw [hcc, Function.update_same]
      exact Nat.succ_ne_zero _
    · rw [Function.update_noteq hcc]
      rcases List.mem_append.mp hi' with hd | hl
      · rw [hold i' hd] at he
        exact (h c).mpr ⟨i', hd, he⟩
      · rw [List.mem_singleton] at hl
        rw [hl, Function.update_same] at he
        exact absurd he.symm hcc

theorem gaussjLoop_used (is done : List (Fin 4)) (st : GaussState K)
    (h : UsedInv done st) (hnd : (done ++ is).Nodup)
    (hrun : (gaussjLoop is st).1 = true) : UsedInv (done ++ is) (gaussjLoop is st).2 := by
  induction is generalizing done st with
  | nil => simpa [gaussjLoop] using h
  | cons i is ih =>
    have hi : i ∉ done := by
      intro hmem
      have := List.nodup_append.mp hnd
      exact this.2.2 hmem (List.mem_cons_self i is)
    have hnd2 : ((done ++ [i]) ++ is).Nodup := by simpa using hnd
    simp only [gaussjLoop] at hrun ⊢
    by_cases hz : get (choosePivot st i).a (choosePivot st i).icol (choosePivot st i).icol = 0
    · simp [hz] at hrun
    · simp only [hz, if_false] at hrun ⊢
      have := ih (done ++ [i]) (reduce (choosePivot st i)) (used_step done st i h hi) hnd2 hrun
      simpa using this

/-- Full pivoting at the state the first `n < 4` successful iterations of
`gaussj(a, b)` lead to: an entry is eligible exactly when neither its row nor
its column is a recorded pivot position, and the search returns an eligible
entry of largest magnitude. -/
theorem full_pivoting (a b : Mat4 K) (n : Nat) (hn : n < 4)
    (hrun : (gaussjPrefix a b n).1 = true) :
    (∀ j k, Eligible (gaussjPrefix a b n).2.ipiv j k ↔
      (∀ i ∈ (List.finRange 4).take n, (gaussjPrefix a b n).2.indxc i ≠ j) ∧
      (∀ i ∈ (List.finRange 4).take n, (gaussjPrefix a b n).2.indxc i ≠ k)) ∧
    Eligible (gaussjPrefix a b n).2.ipiv
      (choosePivot (gaussjPrefix a b n).2 ⟨n, hn⟩).irow
      (choosePivot (gaussjPrefix a b n).2 ⟨n, hn⟩).icol ∧
    ∀ j k, Eligible (gaussjPrefix a b n).2.ipiv j k →
      Fabs32 (get (gaussjPrefix a b n).2.a j k) ≤
        Fabs32 (get (gaussjPrefix a b n).2.a
          (choosePivot (gaussjPrefix a b n).2 ⟨n, hn⟩).irow
          (choosePivot (gaussjPrefix a b n).2 ⟨n, hn⟩).icol) := by
  have hnd : (([] : List (Fin 4)) ++ (List.finRange 4).take n).Nodup := by
    rw [List.nil_append]
    exact (List.nodup_finRange 4).sublist (List.take_sublist n _)
  have h0 : GaussInv (toMatrix a) [] (gaussjInit a b) :=
    ⟨fun _ => Or.inl rfl, by simp [gaussjInit], by simpa [permOf, gaussjInit] using tableau_init a⟩
  have hu0 : UsedInv [] (gaussjInit a b) := by
    intro c
    simp [gaussjInit]
  have hinv : GaussInv (toMatrix a) ((List.finRange 4).take n) (gaussjPrefix a b n).2 := by
    have := (gaussjLoop_spec (toMatrix a) _ [] _ h0 hnd).1 hrun
    rwa [List.nil_append] at this
  have hused : UsedInv ((List.finRange 4).take n) (gaussjPrefix a b n).2 := by
    have := gaussjLoop_used _ [] _ hu0 hnd hrun
    rwa [List.nil_append] at this
  have hlen : ((List.finRange 4).take n).length < 4 := by
    rw [List.length_take, List.length_finRange]
    omega
  obtain ⟨c0, hc0⟩ := exists_free _ _ _ hinv hlen
  have hs := search_spec (gaussjPrefix a b n).2.a (gaussjPrefix a b n).2.ipiv
    (gaussjPrefix a b n).2.irow (gaussjPrefix a b n).2.icol
  have hel := hs.2 ⟨c0, c0, by rw [hc0]; decide, hc0⟩
  have hbin : ∀ c, (gaussjPrefix a b n).2.ipiv c ≠ 1 ↔ (gaussjPrefix a b n).2.ipiv c = 0 := by
    intro c
    rcases hinv.binary c with h | h <;> simp [h]
  have hfree : ∀ c, (gaussjPrefix a b n).2.ipiv c = 0 ↔
      ∀ i ∈ (List.finRange 4).take n, (gaussjPrefix a b n).2.indxc i ≠ c := by
    intro c
    have := hused c
    constructor
    · intro hz i hi he
      exact (this.mpr ⟨i, hi, he⟩) hz
    · intro hall
      by_contra hz
      obtain ⟨i, hi, he⟩ := this.mp hz
      exact hall i hi he
  refine ⟨?_, hel.1, ?_⟩
  · intro j k
    unfold Eligible
    rw [hbin j, hfree j, hfree k]
  · intro j k he
    have := hs.1 j k he
    rw [hel.2] at this
    exact this

/-! ## Compositions of constructors -/

theorem gaussj_flag (a b : Mat4 K) : (gaussj a b).1 = (gaussjPrefix a b 4).1 := by
  have h4 : (List.finRange 4).take 4 = List.finRange 4 := by decide
  simp only [gaussj, gaussjPrefix, gaussjInit, h4]
  split_ifs with h
  · exact h.symm
  · exact (Bool.eq_true_of_not_eq_false h).symm

theorem Translation_Multiply (m1 m2 m3 : Mat4 K) (x1 y1 z1 x2 y2 z2 : K) :
    Multiply (Translation m1 x1 y1 z1) (Translation m2 x2 y2 z2) =
      Translation m3 (x1 + x2) (y1 + y2) (z1 + z2) := by
  simp only [Translation_eq]
  apply Mat4.ext
  intro i
  fin_cases i <;> simp [Multiply] <;> ring

theorem Translation_zero (m : Mat4 K) : Translation m 0 0 0 = Identity zeroMat := by
  rw [Translation_eq, Identity_eq]

theorem Inverse_Translation (m m' : Mat4 K) (x y z : K) :
    (Inverse (Translation m x y z)).1 = true ∧
      (Inverse (Translation m x y z)).2 = Translation m' (-x) (-y) (-z) := by
  have hdet : (toMatrix (Translation m x y z)).det ≠ 0 := by
    rw [← Determinant_eq_det, Translation_eq]
    simp [Determinant]
  obtain ⟨h1, h2⟩ := Inverse_of_det_ne_zero _ hdet
  refine ⟨h1, ?_⟩
  apply toMatrix_injective
  have h3 : toMatrix (Translation m x y z) * toMatrix (Translation m' (-x) (-y) (-z)) = 1 := by
    rw [← toMatrix_Multiply, Translation_Multiply _ _ zeroMat]
    simp only [add_neg_cancel, Translation_zero, toMatrix_Identity]
  calc toMatrix (Inverse (Translation m x y z)).2
      = toMatrix (Inverse (Translation m x y z)).2 *
          (toMatrix (Translation m x y z) * toMatrix (Translation m' (-x) (-y) (-z))) := by
        rw [h3, mul_one]
    _ = toMatrix (Translation m' (-x) (-y) (-z)) := by
        rw [← mul_assoc, h2, one_mul]

section mk16ops
variable (a0 a1 a2 a3 a4 a5 a6 a7 a8 a9 a10 a11 a12 a13 a14 a15 : K)
variable (b0 b1 b2 b3 b4 b5 b6 b7 b8 b9 b10 b11 b12 b13 b14 b15 : K)

theorem Multiply_mk16 :
    Multiply (mk16 a0 a1 a2 a3 a4 a5 a6 a7 a8 a9 a10 a11 a12 a13 a14 a15) (mk16 b0 b1 b2 b3 b4 b5 b6 b7 b8 b9 b10 b11 b12 b13 b14 b15) =
      mk16 (a0 * b0 + a4 * b1 + a8 * b2 + a12 * b3)
        (a1 * b0 + a5 * b1 + a9 * b2 + a13 * b3)
        (a2 * b0 + a6 * b1 + a10 * b2 + a14 * b3)
        (a3 * b0 + a7 * b1 + a11 * b2 + a15 * b3)
        (a0 * b4 + a4 * b5 + a8 * b6 + a12 * b7)
        (a1 * b4 + a5 * b5 + a9 * b6 + a13 * b7)
        (a2 * b4 + a6 * b5 + a10 * b6 + a14 * b7)
        (a3 * b4 + a7 * b5 + a11 * b6 + a15 * b7)
        (a0 * b8 + a4 * b9 + a8 * b10 + a12 * b11)
        (a1 * b8 + a5 * b9 + a9 * b10 + a13 * b11)
        (a2 * b8 + a6 * b9 + a10 * b10 + a14 * b11)
        (a3 * b8 + a7 * b9 + a11 * b10 + a15 * b11)
        (a0 * b12 + a4 * b13 + a8 * b14 + a12 * b15)
        (a1 * b12 + a5 * b13 + a9 * b14 + a13 * b15)
        (a2 * b12 + a6 * b13 + a10 * b14 + a14 * b15)
        (a3 * b12 + a7 * b13 + a11 * b14 + a15 * b15) := by
  simp only [Multiply, mk16_apply_0, mk16_apply_1, mk16_apply_2, mk16_apply_3, mk16_apply_4, mk16_apply_5, mk16_apply_6, mk16_apply_7, mk16_apply_8, mk16_apply_9, mk16_apply_10, mk16_apply_11, mk16_apply_12, mk16_apply_13, mk16_apply_14, mk16_apply_15]

theorem Transpose_mk16 :
    Transpose (mk16 a0 a1 a2 a3 a4 a5 a6 a7 a8 a9 a10 a11 a12 a13 a14 a15) =
      mk16 a0 a4 a8 a12 a1 a5 a9 a13 a2 a6 a10 a14 a3 a7 a11 a15 := by
  apply toMatrix_injective
  ext r c
  simp only [toMatrix, Matrix.of_apply, Transpose_apply]
  fin_cases r <;> fin_cases c <;> rfl

end mk16ops

theorem PitchYawRoll_eq_transpose (Fcos32 Fsin32 : K → K) (m m1 m2 m3 : Mat4 K)
    (pitch yaw roll : K) :
    RotationPitchYawRoll Fcos32 Fsin32 m pitch yaw roll =
      Transpose (Multiply (Multiply (RotationZ Fcos32 Fsin32 m1 roll)
        (RotationY Fcos32 Fsin32 m2 yaw)) (RotationX Fcos32 Fsin32 m3 pitch)) := by
  rw [RotationPitchYawRoll_eq, RotationX_eq, RotationY_eq, RotationZ_eq, Multiply_mk16,
    Multiply_mk16, Transpose_mk16]
  congr 1 <;> ring

/-! ## Rounded and exact arithmetic -/

theorem DeterminantFl_id (m : Mat4 K) : DeterminantFl id m = Determinant m := by
  simp only [DeterminantFl, prod4, Determinant, id]

theorem MultiplyFl_id (m inp : Mat4 K) : MultiplyFl id m inp = Multiply m inp := rfl

theorem ScalarMultiplyFl_id (m : Mat4 K) (k : K) : ScalarMultiplyFl id m k = ScalarMultiply m k :=
  rfl

theorem RotationPitchYawRollFl_id (Fcos32 Fsin32 : K → K) (m : Mat4 K) (pitch yaw roll : K) :
    RotationPitchYawRollFl id Fcos32 Fsin32 m pitch yaw roll =
      RotationPitchYawRoll Fcos32 Fsin32 m pitch yaw roll := rfl

theorem mk16_eta (M : Mat4 K) :
    mk16 (M 0) (M 1) (M 2) (M 3) (M 4) (M 5) (M 6) (M 7) (M 8) (M 9) (M 10) (M 11) (M 12) (M 13) (M 14) (M 15) = M := by
  apply Mat4.ext
  intro i
  fin_cases i <;> simp

theorem MultiplyFl_Identity (fl : K → K) (M m0 : Mat4 K) (h0 : fl 0 = 0)
    (hM : ∀ i : Fin 16, fl (M i) = M i) :
    MultiplyFl fl M (Identity m0) = M ∧ MultiplyFl fl (Identity m0) M = M := by
  rw [Identity_eq]
  constructor
  · simp only [MultiplyFl, mk16_apply_0, mk16_apply_1, mk16_apply_2, mk16_apply_3, mk16_apply_4, mk16_apply_5, mk16_apply_6, mk16_apply_7, mk16_apply_8, mk16_apply_9, mk16_apply_10, mk16_apply_11, mk16_apply_12, mk16_apply_13, mk16_apply_14, mk16_apply_15, dot4, mul_one, mul_zero,
      h0, hM, add_zero, zero_add]
    exact mk16_eta M
  · simp only [MultiplyFl, mk16_apply_0, mk16_apply_1, mk16_apply_2, mk16_apply_3, mk16_apply_4, mk16_apply_5, mk16_apply_6, mk16_apply_7, mk16_apply_8, mk16_apply_9, mk16_apply_10, mk16_apply_11, mk16_apply_12, mk16_apply_13, mk16_apply_14, mk16_apply_15, dot4, one_mul, zero_mul,
      h0, hM, add_zero, zero_add]
    exact mk16_eta M

theorem kmMat4ExtractPlaneFl_normalized (pk : PlaneKinds) (Fsqrt32 : K → K) (m : Mat4 K)
    (planeType : Int)
    (hsq : ∀ x : K, 0 ≤ x → Fsqrt32 x * Fsqrt32 x = x) (hnn : ∀ x : K, 0 ≤ Fsqrt32 x)
    (hsel : planeType = pk.PLANE_RIGHT ∨ planeType = pk.PLANE_LEFT ∨
      planeType = pk.PLANE_BOTTOM ∨ planeType = pk.PLANE_TOP ∨ planeType = pk.PLANE_FAR ∨
      planeType = pk.PLANE_NEAR)
    (hne : ∀ p0, planeSwitchFl id pk m planeType = some p0 →
      p0.A * p0.A + p0.B * p0.B + p0.C * p0.C ≠ 0) :
    ∃ plane, kmMat4ExtractPlaneFl id pk Fsqrt32 m planeType = PlaneOutcome.returned plane ∧
      Fsqrt32 (sqNormFl id plane) = 1 := by
  unfold kmMat4ExtractPlaneFl
  cases hp : planeSwitchFl id pk m planeType with
  | none =>
    exfalso
    have hp' : planeSwitch pk m planeType = none := hp
    have := (planeSwitch_eq_none_iff pk m planeType).mp hp'
    tauto
  | some p0 =>
    have hn0 := hne p0 hp
    have hn : 0 ≤ p0.A * p0.A + p0.B * p0.B + p0.C * p0.C :=
      add_nonneg (add_nonneg (mul_self_nonneg _) (mul_self_nonneg _)) (mul_self_nonneg _)
    have ht0 : Fsqrt32 (sqNormFl id p0) ≠ 0 := by
      intro h0
      have ht := hsq _ hn
      have h0' : Fsqrt32 (p0.A * p0.A + p0.B * p0.B + p0.C * p0.C) = 0 := h0
      rw [h0', mul_zero] at ht
      exact hn0 ht.symm
    simp only [ht0, if_false]
    exact ⟨_, rfl, normalized_sqrt Fsqrt32 hsq hnn p0.A p0.B p0.C hn0⟩

/-! ## The claims -/

/-- Claim C1: in exact arithmetic, for every matrix `M` whose determinant is
not zero, `M.Inverse()` returns `true`, and the matrix `N` it leaves in the
receiver satisfies `M * N = Identity` and `N * M = Identity`, both products
being computed by `Multiply`. -/
theorem C1_inverse_of_invertible (M : Mat4 K) (h : (toMatrix M).det ≠ 0) :
    (Inverse M).1 = true ∧
      Multiply M (Inverse M).2 = Identity zeroMat ∧
      Multiply (Inverse M).2 M = Identity zeroMat := by
  obtain ⟨h1, h2⟩ := Inverse_of_det_ne_zero M h
  refine ⟨h1, ?_, ?_⟩
  · apply toMatrix_injective
    rw [toMatrix_Multiply, toMatrix_Identity]
    exact Matrix.mul_eq_one_comm.mp h2
  · apply toMatrix_injective
    rw [toMatrix_Multiply, toMatrix_Identity]
    exact h2

/-- Witness for C1: a matrix of determinant `-210`. -/
theorem C1_inverse_of_invertible_witness :
    (toMatrix (mk16 1 2 3 4 5 6 7 9 3 (-1) 2 5 1 1 0 7 : Mat4 ℚ)).det ≠ 0 ∧
    ((Inverse (mk16 1 2 3 4 5 6 7 9 3 (-1) 2 5 1 1 0 7 : Mat4 ℚ)).1 = true ∧
      Multiply (mk16 1 2 3 4 5 6 7 9 3 (-1) 2 5 1 1 0 7 : Mat4 ℚ)
        (Inverse (mk16 1 2 3 4 5 6 7 9 3 (-1) 2 5 1 1 0 7 : Mat4 ℚ)).2 = Identity zeroMat ∧
      Multiply (Inverse (mk16 1 2 3 4 5 6 7 9 3 (-1) 2 5 1 1 0 7 : Mat4 ℚ)).2
        (mk16 1 2 3 4 5 6 7 9 3 (-1) 2 5 1 1 0 7 : Mat4 ℚ) = Identity zeroMat) :=
  ⟨by rw [← Determinant_eq_det]; norm_num [Determinant],
   C1_inverse_of_invertible _ (by rw [← Determinant_eq_det]; norm_num [Determinant])⟩

/-- Claim C2: in exact arithmetic, `M.Inverse()` returns `false` on every
matrix `M` of determinant zero. -/
theorem C2_inverse_of_singular (M : Mat4 K) (h : (toMatrix M).det = 0) :
    (Inverse M).1 = false :=
  Inverse_of_det_eq_zero M h

/-- Witness for C2: a matrix whose rows 0 and 1 are identical. -/
theorem C2_inverse_of_singular_witness :
    (toMatrix (mk16 1 1 2 3 4 4 5 6 7 7 8 9 1 1 0 2 : Mat4 ℚ)).det = 0 ∧
    (Inverse (mk16 1 1 2 3 4 4 5 6 7 7 8 9 1 1 0 2 : Mat4 ℚ)).1 = false :=
  ⟨by rw [← Determinant_eq_det]; norm_num [Determinant],
   C2_inverse_of_singular _ (by rw [← Determinant_eq_det]; norm_num [Determinant])⟩

/-- Claim C3: whenever `M.Inverse()` returns `false`, each of the sixteen
entries of the receiver after the call equals its entry before the call. -/
theorem C3_inverse_failure_frame (M : Mat4 K) (h : (Inverse M).1 = false) :
    ∀ i : Fin 16, (Inverse M).2 i = M i := by
  intro i
  rw [Inverse_of_false M h]

set_option maxRecDepth 100000 in
/-- Witness for C3: the all-zero matrix, on which `Inverse` returns `false`. -/
theorem C3_inverse_failure_frame_witness :
    (Inverse (mk16 0 0 0 0 0 0 0 0 0 0 0 0 0 0 0 0 : Mat4 ℚ)).1 = false ∧
    ∀ i : Fin 16, (Inverse (mk16 0 0 0 0 0 0 0 0 0 0 0 0 0 0 0 0 : Mat4 ℚ)).2 i =
      (mk16 0 0 0 0 0 0 0 0 0 0 0 0 0 0 0 0 : Mat4 ℚ) i :=
  ⟨by decide, C3_inverse_failure_frame _ (by decide)⟩

set_option maxRecDepth 100000 in
/-- Counterexample to claim C4 as stated: in `float32` arithmetic
`Determinant()` returns 0 on the matrix with rows `(4097, 4096, 0, 0)`,
`(4098, 4097, 0, 0)`, `(0, 0, 1, 0)`, `(0, 0, 0, 1)`, whose determinant is 1:
`4097 * 4097` rounds to `16785408 = 4096 * 4098`. -/
theorem C4_determinant_rounds :
    DeterminantFl rnd32 (mk16 4097 4098 0 0 4096 4097 0 0 0 0 1 0 0 0 0 1 : Mat4 ℚ) = 0 ∧
    Matrix.det (Matrix.of fun r c : Fin 4 => (mk16 4097 4098 0 0 4096 4097 0 0 0 0 1 0 0 0 0 1 : Mat4 ℚ) (idx r c)) = 1 := by
  refine ⟨by decide!, ?_⟩
  have h := Determinant_eq_det (mk16 4097 4098 0 0 4096 4097 0 0 0 0 1 0 0 0 0 1 : Mat4 ℚ)
  unfold toMatrix at h
  rw [← h]
  norm_num [Determinant]

/-- Claim C4, amended: in exact arithmetic (no operation rounds), for every
4x4 matrix `M`, `Determinant()` returns the mathematical determinant (Leibniz
formula, `Matrix.det`) of the matrix whose entry at row `r`, column `c` is
`M[r + 4*c]`. -/
theorem C4_determinant_exact (M : Mat4 K) :
    DeterminantFl id M = Matrix.det (Matrix.of fun r c : Fin 4 => M (idx r c)) := by
  rw [DeterminantFl_id]
  exact Determinant_eq_det M

/-- Claim C5: after `M.Multiply(R)` the entry of the receiver at index
`r + 4*c` is the sum over `k` of `M[r + 4*k] * R[k + 4*c]` (old contents of
`M`), and the argument `R` is unchanged. -/
theorem C5_multiply (M R : Mat4 K) :
    (∀ r c : Fin 4, (MultiplyCall { recv := M, arg := R }).recv (idx r c) =
        ∑ k : Fin 4, M (idx r k) * R (idx k c)) ∧
      (MultiplyCall { recv := M, arg := R }).arg = R :=
  ⟨fun r c => Multiply_apply M R r c, rfl⟩

set_option maxRecDepth 100000 in
/-- Counterexample to claim C6 as stated: in `float32` arithmetic, for
`M = Translation(16777216, 0, 0)` both `M.Multiply(Identity)` and
`Identity.Multiply(M)` equal `M` entry for entry, yet neither satisfies
`AreEqual` with `M`, because `16777216 + 1/64` rounds to `16777216`. -/
theorem C6_areEqual_fails :
    (∀ i : Fin 16, MultiplyFl rnd32 (Translation zeroMat 16777216 0 0 : Mat4 ℚ) (Identity zeroMat) i = (Translation zeroMat 16777216 0 0 : Mat4 ℚ) i) ∧
    (∀ i : Fin 16, MultiplyFl rnd32 (Identity zeroMat) (Translation zeroMat 16777216 0 0 : Mat4 ℚ) i = (Translation zeroMat 16777216 0 0 : Mat4 ℚ) i) ∧
    AreEqualFl rnd32 (MultiplyFl rnd32 (Translation zeroMat 16777216 0 0 : Mat4 ℚ) (Identity zeroMat)) (Translation zeroMat 16777216 0 0 : Mat4 ℚ) = false ∧
    AreEqualFl rnd32 (MultiplyFl rnd32 (Identity zeroMat) (Translation zeroMat 16777216 0 0 : Mat4 ℚ)) (Translation zeroMat 16777216 0 0 : Mat4 ℚ) = false := by
  decide!

/-- Claim C6, amended: identity law, entry for entry. For every matrix `M`
whose entries are numbers of the arithmetic in use (the rounding `fl` leaves
them and 0 unchanged: any `float32` matrix, or any matrix in exact
arithmetic), `M.Multiply(Identity)` leaves `M` entry-for-entry unchanged and
`Identity.Multiply(M)` yields a matrix entry-for-entry equal to `M`. -/
theorem C6_identity_law_entrywise (fl : K → K) (M m0 : Mat4 K) (h0 : fl 0 = 0)
    (hM : ∀ i : Fin 16, fl (M i) = M i) :
    MultiplyFl fl M (Identity m0) = M ∧ MultiplyFl fl (Identity m0) M = M :=
  MultiplyFl_Identity fl M m0 h0 hM

set_option maxRecDepth 100000 in
/-- Witness for C6: `float32` rounding and `M = Translation(16777216, 0, 0)`. -/
theorem C6_identity_law_entrywise_witness :
    rnd32 0 = 0 ∧ (∀ i : Fin 16, rnd32 ((Translation zeroMat 16777216 0 0 : Mat4 ℚ) i) = (Translation zeroMat 16777216 0 0 : Mat4 ℚ) i) ∧
    (MultiplyFl rnd32 (Translation zeroMat 16777216 0 0 : Mat4 ℚ) (Identity zeroMat) = (Translation zeroMat 16777216 0 0 : Mat4 ℚ) ∧
      MultiplyFl rnd32 (Identity zeroMat) (Translation zeroMat 16777216 0 0 : Mat4 ℚ) = (Translation zeroMat 16777216 0 0 : Mat4 ℚ)) :=
  ⟨by decide!, by decide!,
    C6_identity_law_entrywise rnd32 (Translation zeroMat 16777216 0 0 : Mat4 ℚ) zeroMat (by decide!) (by decide!)⟩

/-- Claim C7: after `Transpose` the entry at `(r, c)` is the old entry at
`(c, r)`, and two calls of `Transpose` give back exactly the matrix one
started from. -/
theorem C7_transpose (M : Mat4 K) :
    (∀ r c : Fin 4, Transpose M (idx r c) = M (idx c r)) ∧ Transpose (Transpose M) = M :=
  ⟨Transpose_apply M, Transpose_Transpose M⟩

/-- Claim C8: translations compose additively. The matrix built by
`Translation(x1,y1,z1)` multiplied (`Multiply`) by the one built by
`Translation(x2,y2,z2)` is the one built by `Translation(x1+x2,y1+y2,z1+z2)`,
whatever the receivers held before. -/
theorem C8_translation_compose (m1 m2 m3 : Mat4 K) (x1 y1 z1 x2 y2 z2 : K) :
    Multiply (Translation m1 x1 y1 z1) (Translation m2 x2 y2 z2) =
      Translation m3 (x1 + x2) (y1 + y2) (z1 + z2) := by
  simp only [Translation_eq]
  apply Mat4.ext
  intro i
  fin_cases i <;> simp [Multiply] <;> ring

set_option maxRecDepth 100000 in
/-- Counterexample to claim C9 as stated: in `float32` arithmetic, at
`k = 13421773/134217728` (the `float32` nearest to 0.1), `Identity()`
followed by `ScalarMultiply(k)` has `Determinant()` equal to
`1717987/17179869184`, which is not `k^4`. -/
theorem C9_scaled_identity_rounds :
    DeterminantFl rnd32 (ScalarMultiplyFl rnd32 (Identity zeroMat) (13421773 / 134217728)) =
      1717987 / 17179869184 ∧
    (1717987 / 17179869184 : ℚ) ≠ (13421773 / 134217728) ^ 4 := by
  refine ⟨by decide!, by norm_num⟩

set_option maxRecDepth 100000 in
/-- Claim C9, amended: in exact arithmetic, for every scalar `k`, the matrix
obtained by `Identity()` followed by `ScalarMultiply(k)` has `Determinant()`
equal to `k^4`; the identity has determinant 1 and `k = 2` gives 16, in exact
arithmetic and in `float32` arithmetic alike. -/
theorem C9_scaled_identity_determinant_exact (m0 : Mat4 K) (m1 : Mat4 ℚ) (k : K) :
    DeterminantFl id (ScalarMultiplyFl id (Identity m0) k) = k ^ 4 ∧
      DeterminantFl id (Identity m0) = 1 ∧
      DeterminantFl id (ScalarMultiplyFl id (Identity m0) 2) = 16 ∧
      DeterminantFl rnd32 (Identity m1) = 1 ∧
      DeterminantFl rnd32 (ScalarMultiplyFl rnd32 (Identity m1) 2) = 16 := by
  refine ⟨?_, ?_, ?_, ?_, ?_⟩
  · rw [DeterminantFl_id, ScalarMultiplyFl_id]
    simp only [Determinant, ScalarMultiply_apply, Identity_eq]
    simp
    ring
  · rw [DeterminantFl_id]
    simp only [Determinant, Identity_eq]
    simp
  · rw [DeterminantFl_id, ScalarMultiplyFl_id]
    simp only [Determinant, ScalarMultiply_apply, Identity_eq]
    simp
    norm_num
  · rw [Identity_eq]
    decide!
  · rw [Identity_eq]
    decide!

set_option maxRecDepth 100000 in
/-- Claim C10, evaluated at a failing input: for the matrix `A` that is zero
except for `A[7] = 262144`, every `|A[i] - A[i]|` is `0 < 1/64`, yet in
`float32` arithmetic `A.AreEqual(A)` returns `false`, because
`262144 + 1/64` rounds to `262144`, which is not greater than `A[7]`. -/
theorem C10_areEqual_false_on_equal :
    (∀ i : Fin 16, |(mk16 0 0 0 0 0 0 0 262144 0 0 0 0 0 0 0 0 : Mat4 ℚ) i - (mk16 0 0 0 0 0 0 0 262144 0 0 0 0 0 0 0 0 : Mat4 ℚ) i| < 1 / 64) ∧
    rnd32 (262144 + 1 / 64) = 262144 ∧
    AreEqualFl rnd32 (mk16 0 0 0 0 0 0 0 262144 0 0 0 0 0 0 0 0 : Mat4 ℚ) (mk16 0 0 0 0 0 0 0 262144 0 0 0 0 0 0 0 0 : Mat4 ℚ) = false := by
  refine ⟨?_, by decide!, by decide!⟩
  intro i
  simp

/-- Claim C11: for every angle `t` with `cos(t)^2 + sin(t)^2 = 1`, each of the
matrices built by `RotationX(t)`, `RotationY(t)` and `RotationZ(t)` has an
upper-left 3x3 block `R` with `R * Rᵀ` equal to the 3x3 identity, and has
determinant 1 (the block and the whole matrix). -/
theorem C11_axis_rotations (Fcos32 Fsin32 : K → K) (m : Mat4 K) (t : K)
    (h : Fcos32 t ^ 2 + Fsin32 t ^ 2 = 1) :
    IsRotation (RotationX Fcos32 Fsin32 m t) ∧ IsRotation (RotationY Fcos32 Fsin32 m t) ∧
      IsRotation (RotationZ Fcos32 Fsin32 m t) :=
  ⟨RotationX_isRotation Fcos32 Fsin32 m t h, RotationY_isRotation Fcos32 Fsin32 m t h,
    RotationZ_isRotation Fcos32 Fsin32 m t h⟩

/-- Witness for C11: the real cosine and sine at the angle 1. -/
theorem C11_axis_rotations_witness :
    Real.cos 1 ^ 2 + Real.sin 1 ^ 2 = 1 ∧
    (IsRotation (RotationX Real.cos Real.sin (zeroMat : Mat4 ℝ) 1) ∧
      IsRotation (RotationY Real.cos Real.sin (zeroMat : Mat4 ℝ) 1) ∧
      IsRotation (RotationZ Real.cos Real.sin (zeroMat : Mat4 ℝ) 1)) :=
  ⟨Real.cos_sq_add_sin_sq 1,
    C11_axis_rotations Real.cos Real.sin zeroMat 1 (Real.cos_sq_add_sin_sq 1)⟩

/-- Claim C12: for every quaternion with `X^2 + Y^2 + Z^2 + W^2 = 1`, the
matrix built by `RotationQuaternion` has an upper-left 3x3 block `R` with
`R * Rᵀ` equal to the 3x3 identity, and has determinant 1. -/
theorem C12_quaternion_rotation (m : Mat4 K) (q : Quaternion K)
    (h : q.X ^ 2 + q.Y ^ 2 + q.Z ^ 2 + q.W ^ 2 = 1) : IsRotation (RotationQuaternion m q) :=
  RotationQuaternion_isRotation m q h

/-- Witness for C12: the unit quaternion `(1/2, 1/2, 1/2, 1/2)`. -/
theorem C12_quaternion_rotation_witness :
    (({ X := 1 / 2, Y := 1 / 2, Z := 1 / 2, W := 1 / 2 } : Quaternion ℚ).X ^ 2 +
      ({ X := 1 / 2, Y := 1 / 2, Z := 1 / 2, W := 1 / 2 } : Quaternion ℚ).Y ^ 2 +
      ({ X := 1 / 2, Y := 1 / 2, Z := 1 / 2, W := 1 / 2 } : Quaternion ℚ).Z ^ 2 +
      ({ X := 1 / 2, Y := 1 / 2, Z := 1 / 2, W := 1 / 2 } : Quaternion ℚ).W ^ 2 = 1) ∧
    IsRotation (RotationQuaternion (zeroMat : Mat4 ℚ)
      { X := 1 / 2, Y := 1 / 2, Z := 1 / 2, W := 1 / 2 }) :=
  have h : ({ X := 1 / 2, Y := 1 / 2, Z := 1 / 2, W := 1 / 2 } : Quaternion ℚ).X ^ 2 +
      ({ X := 1 / 2, Y := 1 / 2, Z := 1 / 2, W := 1 / 2 } : Quaternion ℚ).Y ^ 2 +
      ({ X := 1 / 2, Y := 1 / 2, Z := 1 / 2, W := 1 / 2 } : Quaternion ℚ).Z ^ 2 +
      ({ X := 1 / 2, Y := 1 / 2, Z := 1 / 2, W := 1 / 2 } : Quaternion ℚ).W ^ 2 = 1 := by
    norm_num
  ⟨h, C12_quaternion_rotation zeroMat _ h⟩

set_option maxRecDepth 100000 in
/-- Counterexample to claim C13 as stated: in `float32` arithmetic, on the
matrix with entries `1, ..., 16` and the selector `PLANE_RIGHT` (normal
`(3, 3, 3)` before normalisation), the plane returned has
`A = B = C = 9686331/16777216`; `A^2 + B^2 + C^2` is not 1 and the rounded
`sqrt(A^2 + B^2 + C^2)` is `8388609/8388608`, not 1. -/
theorem C13_plane_norm_rounds :
    kmMat4ExtractPlaneFl rnd32 planeKinds0 sqrt32 (mk16 1 2 3 4 5 6 7 8 9 10 11 12 13 14 15 16 : Mat4 ℚ) planeKinds0.PLANE_RIGHT =
      PlaneOutcome.returned (Plane.mk (9686331 / 16777216) (9686331 / 16777216) (9686331 / 16777216)
        (9686331 / 16777216) : Plane ℚ) ∧
    (Plane.mk (9686331 / 16777216) (9686331 / 16777216) (9686331 / 16777216)
        (9686331 / 16777216) : Plane ℚ).A * (Plane.mk (9686331 / 16777216) (9686331 / 16777216) (9686331 / 16777216)
        (9686331 / 16777216) : Plane ℚ).A + (Plane.mk (9686331 / 16777216) (9686331 / 16777216) (9686331 / 16777216)
        (9686331 / 16777216) : Plane ℚ).B * (Plane.mk (9686331 / 16777216) (9686331 / 16777216) (9686331 / 16777216)
        (9686331 / 16777216) : Plane ℚ).B + (Plane.mk (9686331 / 16777216) (9686331 / 16777216) (9686331 / 16777216)
        (9686331 / 16777216) : Plane ℚ).C * (Plane.mk (9686331 / 16777216) (9686331 / 16777216) (9686331 / 16777216)
        (9686331 / 16777216) : Plane ℚ).C ≠ 1 ∧
    sqrt32 (sqNormFl rnd32 (Plane.mk (9686331 / 16777216) (9686331 / 16777216) (9686331 / 16777216)
        (9686331 / 16777216) : Plane ℚ)) = 8388609 / 8388608 ∧
    (8388609 / 8388608 : ℚ) ≠ 1 := by
  refine ⟨by decide!, by norm_num, by decide!, by norm_num⟩

/-- Claim C13, amended: in exact arithmetic with an exact square root
(`Fsqrt32` is a square root on the non-negative scalars), for any matrix `M`
and any of the six selectors for which the un-normalised normal `(A, B, C)`
formed by the `switch` is not the zero vector, `kmMat4ExtractPlane` returns a
plane that is normalised: `sqrt(A^2 + B^2 + C^2) = 1`. -/
theorem C13_plane_normalized_exact (pk : PlaneKinds) (Fsqrt32 : K → K) (m : Mat4 K)
    (planeType : Int)
    (hsq : ∀ x : K, 0 ≤ x → Fsqrt32 x * Fsqrt32 x = x) (hnn : ∀ x : K, 0 ≤ Fsqrt32 x)
    (hsel : planeType = pk.PLANE_RIGHT ∨ planeType = pk.PLANE_LEFT ∨
      planeType = pk.PLANE_BOTTOM ∨ planeType = pk.PLANE_TOP ∨ planeType = pk.PLANE_FAR ∨
      planeType = pk.PLANE_NEAR)
    (hne : ∀ p0, planeSwitchFl id pk m planeType = some p0 →
      p0.A * p0.A + p0.B * p0.B + p0.C * p0.C ≠ 0) :
    ∃ plane, kmMat4ExtractPlaneFl id pk Fsqrt32 m planeType = PlaneOutcome.returned plane ∧
      Fsqrt32 (sqNormFl id plane) = 1 :=
  kmMat4ExtractPlaneFl_normalized pk Fsqrt32 m planeType hsq hnn hsel hne

/-- Witness for C13: the identity matrix, the real square root and the
selector `PLANE_RIGHT`, whose un-normalised normal is `(-1, 0, 0)`. -/
theorem C13_plane_normalized_exact_witness :
    (∀ x : ℝ, 0 ≤ x → Real.sqrt x * Real.sqrt x = x) ∧
    (∀ p0, planeSwitchFl id planeKinds0 (Identity zeroMat : Mat4 ℝ)
        planeKinds0.PLANE_RIGHT = some p0 →
      p0.A * p0.A + p0.B * p0.B + p0.C * p0.C ≠ 0) ∧
    ∃ plane, kmMat4ExtractPlaneFl id planeKinds0 Real.sqrt (Identity zeroMat : Mat4 ℝ)
        planeKinds0.PLANE_RIGHT = PlaneOutcome.returned plane ∧
      Real.sqrt (sqNormFl id plane) = 1 :=
  have hne : ∀ p0, planeSwitchFl id planeKinds0 (Identity zeroMat : Mat4 ℝ)
      planeKinds0.PLANE_RIGHT = some p0 →
      p0.A * p0.A + p0.B * p0.B + p0.C * p0.C ≠ 0 := by
    intro p0 hp
    simp [planeSwitchFl, Identity_eq] at hp
    subst hp
    norm_num
  ⟨fun _ hx => Real.mul_self_sqrt hx, hne,
    C13_plane_normalized_exact planeKinds0 Real.sqrt (Identity zeroMat) planeKinds0.PLANE_RIGHT
      (fun _ hx => Real.mul_self_sqrt hx) Real.sqrt_nonneg (Or.inl rfl) hne⟩

/-- Claim C14: `kmMat4ExtractPlane` ends in the `panic` (returns no plane)
exactly when the selector is none of `PLANE_RIGHT`, `PLANE_LEFT`,
`PLANE_BOTTOM`, `PLANE_TOP`, `PLANE_FAR`, `PLANE_NEAR`. -/
theorem C14_panic_iff_unrecognized (pk : PlaneKinds) (Fsqrt32 : K → K) (m : Mat4 K)
    (planeType : Int) :
    kmMat4ExtractPlane pk Fsqrt32 m planeType = none ↔
      planeType ≠ pk.PLANE_RIGHT ∧ planeType ≠ pk.PLANE_LEFT ∧ planeType ≠ pk.PLANE_BOTTOM ∧
      planeType ≠ pk.PLANE_TOP ∧ planeType ≠ pk.PLANE_FAR ∧ planeType ≠ pk.PLANE_NEAR := by
  rw [kmMat4ExtractPlane_eq_none_iff, planeSwitch_eq_none_iff]

/-- Claim C15: each of the constructors `Identity`, `Fill`, `Scaling`,
`Translation`, `RotationX`, `RotationY`, `RotationZ`, `RotationQuaternion`,
`RotationPitchYawRoll`, `RotationTranslation` leaves two receivers `M1` and
`M2` entry-for-entry equal when called with equal arguments. -/
theorem C15_constructors_overwrite (M1 M2 : Mat4 K) (Fcos32 Fsin32 : K → K)
    (content x y z radians pitch yaw roll : K) (pIn : Quaternion K) (rotation : Mat3 K)
    (translation : Vec3 K) :
    Identity M1 = Identity M2 ∧
    Fill M1 content = Fill M2 content ∧
    Scaling M1 x y z = Scaling M2 x y z ∧
    Translation M1 x y z = Translation M2 x y z ∧
    RotationX Fcos32 Fsin32 M1 radians = RotationX Fcos32 Fsin32 M2 radians ∧
    RotationY Fcos32 Fsin32 M1 radians = RotationY Fcos32 Fsin32 M2 radians ∧
    RotationZ Fcos32 Fsin32 M1 radians = RotationZ Fcos32 Fsin32 M2 radians ∧
    RotationQuaternion M1 pIn = RotationQuaternion M2 pIn ∧
    RotationPitchYawRoll Fcos32 Fsin32 M1 pitch yaw roll =
      RotationPitchYawRoll Fcos32 Fsin32 M2 pitch yaw roll ∧
    RotationTranslation M1 rotation translation = RotationTranslation M2 rotation translation := by
  refine ⟨?_, ?_, ?_, ?_, ?_, ?_, ?_, ?_, ?_, ?_⟩
  · rw [Identity_eq, Identity_eq]
  · rw [Fill_eq, Fill_eq]
  · rw [Scaling_eq, Scaling_eq]
  · rw [Translation_eq, Translation_eq]
  · rw [RotationX_eq, RotationX_eq]
  · rw [RotationY_eq, RotationY_eq]
  · rw [RotationZ_eq, RotationZ_eq]
  · rw [RotationQuaternion_eq, RotationQuaternion_eq]
  · rw [RotationPitchYawRoll_eq, RotationPitchYawRoll_eq]
  · rw [RotationTranslation_eq, RotationTranslation_eq]

set_option maxRecDepth 100000 in
/-- Counterexample to claim C16 as stated: in the first pivot search on the
identity matrix every entry is eligible, the largest magnitude is 1 and the
first entry in scan order that has it is `(0, 0)`, yet the search returns
`(3, 3)`. -/
theorem C16_first_maximal_not_chosen :
    Eligible (fun _ => 0) (0 : Fin 4) 0 ∧
    (∀ j k : Fin 4, Fabs32 (get (Identity zeroMat : Mat4 ℚ) j k) ≤
      Fabs32 (get (Identity zeroMat : Mat4 ℚ) 0 0)) ∧
    (search (Identity zeroMat : Mat4 ℚ) (fun _ => 0) 0 0).irow = 3 ∧
    (search (Identity zeroMat : Mat4 ℚ) (fun _ => 0) 0 0).icol = 3 := by
  unfold Eligible
  decide

/-- Claim C16, amended: in the pivot search of `gaussj`, when several
eligible entries share the largest absolute value, the last such entry in
scan order (rows `j` ascending, then columns `k` ascending) is the one
chosen as `(irow, icol)`: the chosen entry is eligible, no eligible entry has
a larger magnitude, and every eligible entry of the same magnitude is met no
later than the chosen one. -/
theorem C16_last_maximal_chosen (a : Mat4 K) (ipiv : Fin 4 → Nat) (irow icol : Fin 4)
    (hex : ∃ j k, Eligible ipiv j k) :
    Eligible ipiv (search a ipiv irow icol).irow (search a ipiv irow icol).icol ∧
    (∀ j k, Eligible ipiv j k → Fabs32 (get a j k) ≤
      Fabs32 (get a (search a ipiv irow icol).irow (search a ipiv irow icol).icol)) ∧
    (∀ j k, Eligible ipiv j k →
      Fabs32 (get a j k) =
        Fabs32 (get a (search a ipiv irow icol).irow (search a ipiv irow icol).icol) →
      ScanLe j k (search a ipiv irow icol).irow (search a ipiv irow icol).icol) := by
  have hs := search_spec a ipiv irow icol
  have hel := hs.2 hex
  refine ⟨hel.1, ?_, ?_⟩
  · intro j k he
    rw [← hel.2]
    exact hs.1 j k he
  · intro j k he heq
    rw [← hel.2] at heq
    exact search_last_spec a ipiv irow icol j k he heq

/-- Witness for C16: the first pivot search on the identity matrix. -/
theorem C16_last_maximal_chosen_witness :
    (∃ j k : Fin 4, Eligible (fun _ => 0) j k) ∧
    Eligible (fun _ => 0)
      (search (Identity zeroMat : Mat4 ℚ) (fun _ => 0) 0 0).irow
      (search (Identity zeroMat : Mat4 ℚ) (fun _ => 0) 0 0).icol :=
  ⟨⟨0, 0, by decide, rfl⟩,
    (C16_last_maximal_chosen (Identity zeroMat : Mat4 ℚ) (fun _ => 0) 0 0
      ⟨0, 0, by decide, rfl⟩).1⟩

set_option maxRecDepth 100000 in
/-- Claim C17, evaluated at a failing input: on the invertible matrix with
ones on the diagonal and `A[0,1] = 1`, called with `B` the identity, `gaussj`
returns `true`; the inverse has `-1` at row 0, column 1 (index 4), which is
what `*a` holds, but `*b` holds `-2` there, and `A * B` has `-1` instead of
`0` at that position. -/
theorem C17_aux_matrix_not_inverse :
    (gaussj (mk16 1 0 0 0 1 1 0 0 0 0 1 0 0 0 0 1 : Mat4 ℚ) (Identity zeroMat)).1 = true ∧
    (gaussj (mk16 1 0 0 0 1 1 0 0 0 0 1 0 0 0 0 1 : Mat4 ℚ) (Identity zeroMat)).2.1 4 = -1 ∧
    (gaussj (mk16 1 0 0 0 1 1 0 0 0 0 1 0 0 0 0 1 : Mat4 ℚ) (Identity zeroMat)).2.2 4 = -2 ∧
    Multiply (mk16 1 0 0 0 1 1 0 0 0 0 1 0 0 0 0 1 : Mat4 ℚ)
      (gaussj (mk16 1 0 0 0 1 1 0 0 0 0 1 0 0 0 0 1 : Mat4 ℚ) (Identity zeroMat)).2.2 4 = -1 := by
  decide!

/-- Claim C18: full pivoting. At each of the 4 elimination steps of `gaussj`
(step `n`, reached after `n` iterations that did not return `false`), an
entry is eligible exactly when neither its row nor its column is a pivot
position recorded so far, the chosen `(irow, icol)` is eligible, and
`|A[irow, icol]| ≥ |A[j, k]|` for every eligible `(j, k)`. -/
theorem C18_full_pivoting (a b : Mat4 K) (n : Nat) (hn : n < 4)
    (hrun : (gaussjPrefix a b n).1 = true) :
    (∀ j k, Eligible (gaussjPrefix a b n).2.ipiv j k ↔
      (∀ i ∈ (List.finRange 4).take n, (gaussjPrefix a b n).2.indxc i ≠ j) ∧
      (∀ i ∈ (List.finRange 4).take n, (gaussjPrefix a b n).2.indxc i ≠ k)) ∧
    Eligible (gaussjPrefix a b n).2.ipiv
      (choosePivot (gaussjPrefix a b n).2 ⟨n, hn⟩).irow
      (choosePivot (gaussjPrefix a b n).2 ⟨n, hn⟩).icol ∧
    ∀ j k, Eligible (gaussjPrefix a b n).2.ipiv j k →
      Fabs32 (get (gaussjPrefix a b n).2.a j k) ≤
        Fabs32 (get (gaussjPrefix a b n).2.a
          (choosePivot (gaussjPrefix a b n).2 ⟨n, hn⟩).irow
          (choosePivot (gaussjPrefix a b n).2 ⟨n, hn⟩).icol) :=
  full_pivoting a b n hn hrun

set_option maxRecDepth 100000 in
/-- Witness for C18: the second step (`n = 1`) of `gaussj` on a matrix with
ones on the diagonal and `A[0,1] = 1`. -/
theorem C18_full_pivoting_witness :
    (gaussjPrefix (mk16 1 0 0 0 1 1 0 0 0 0 1 0 0 0 0 1 : Mat4 ℚ) (Identity zeroMat) 1).1 = true ∧
    Eligible (gaussjPrefix (mk16 1 0 0 0 1 1 0 0 0 0 1 0 0 0 0 1 : Mat4 ℚ) (Identity zeroMat) 1).2.ipiv
      (choosePivot (gaussjPrefix (mk16 1 0 0 0 1 1 0 0 0 0 1 0 0 0 0 1 : Mat4 ℚ)
        (Identity zeroMat) 1).2 ⟨1, by decide⟩).irow
      (choosePivot (gaussjPrefix (mk16 1 0 0 0 1 1 0 0 0 0 1 0 0 0 0 1 : Mat4 ℚ)
        (Identity zeroMat) 1).2 ⟨1, by decide⟩).icol :=
  ⟨by decide!, (C18_full_pivoting _ _ 1 (by decide) (by decide!)).2.1⟩

set_option maxRecDepth 100000 in
/-- Counterexample to claim C19 as stated: in `float32` arithmetic, with
pitch = yaw = 0.1 and roll = 0.2 (as `float32` numbers, with the `float32`
values of their sines and cosines), entry 6 of `RotationPitchYawRoll` is
`-10483565/134217728` while entry 6 of the transposed product is
`-5241783/67108864`: the two sides round different intermediate products. -/
theorem C19_pitch_yaw_roll_rounds :
    RotationPitchYawRollFl rnd32 cosTab sinTab zeroMat (13421773 / 134217728) (13421773 / 134217728) (13421773 / 67108864) 6 =
      -10483565 / 134217728 ∧
    Transpose (MultiplyFl rnd32 (MultiplyFl rnd32
      (RotationZ cosTab sinTab zeroMat (13421773 / 67108864))
      (RotationY cosTab sinTab zeroMat (13421773 / 134217728)))
      (RotationX cosTab sinTab zeroMat (13421773 / 134217728))) 6 = -5241783 / 67108864 ∧
    (-10483565 / 134217728 : ℚ) ≠ -5241783 / 67108864 := by
  refine ⟨by decide!, by decide!, by norm_num⟩

/-- Claim C19, amended: in exact arithmetic, for all angles, the matrix built
by `RotationPitchYawRoll(pitch, yaw, roll)` equals the `Transpose` of the
product `RotationZ(roll) * RotationY(yaw) * RotationX(pitch)` formed with
`Multiply`; the equality holds for arbitrary values of the sines and cosines,
without any trigonometric identity. -/
theorem C19_pitch_yaw_roll_exact (Fcos32 Fsin32 : K → K) (m m1 m2 m3 : Mat4 K)
    (pitch yaw roll : K) :
    RotationPitchYawRollFl id Fcos32 Fsin32 m pitch yaw roll =
      Transpose (MultiplyFl id (MultiplyFl id (RotationZ Fcos32 Fsin32 m1 roll)
        (RotationY Fcos32 Fsin32 m2 yaw)) (RotationX Fcos32 Fsin32 m3 pitch)) := by
  rw [RotationPitchYawRollFl_id, MultiplyFl_id, MultiplyFl_id]
  exact PitchYawRoll_eq_transpose Fcos32 Fsin32 m m1 m2 m3 pitch yaw roll

/-- Claim C20: in exact arithmetic, for all `x, y, z`, `Inverse()` on the
matrix built by `Translation(x, y, z)` returns `true` and leaves the receiver
equal to the matrix built by `Translation(-x, -y, -z)`. -/
theorem C20_inverse_translation (m m' : Mat4 K) (x y z : K) :
    (Inverse (Translation m x y z)).1 = true ∧
      (Inverse (Translation m x y z)).2 = Translation m' (-x) (-y) (-z) :=
  Inverse_Translation m m' x y z

end Mathgl
